import Mathlib

/-!
Verification of the str0m RTP core: the AV1 Dependency Descriptor parser,
the Video Layers Allocation parser, the RTP header-extension map, the SRTP
IV derivation and the stats aggregator.  Definitions are shallow embeddings
of the Rust sources (src/rtp/dependency_descriptor.rs, src/rtp/ext.rs,
src/crypto/srtp.rs, str0m/src/stats.rs); bytes are `Nat` values below 256,
machine-integer wrapping is made explicit with `% 2^32` where the Rust code
wraps.
-/

namespace Dd

/-- Embeds `BitStream` of dependency_descriptor.rs: a byte slice plus the
bit index inside the first byte. -/
structure BitStream where
  bytes : List Nat
  bitIndex : Nat
deriving DecidableEq

namespace BitStream

/-- `BitStream::new` -/
def new (bytes : List Nat) : BitStream := ⟨bytes, 0⟩

/-- `BitStream::is_empty` -/
def isEmpty (s : BitStream) : Bool := s.bytes.isEmpty

/-- `BitStream::read_ms_bit_of_byte`: most-significant-first bit of a byte. -/
def read_ms_bit_of_byte (byte : Nat) (bitIndex : Nat) : Option Bool :=
  if bitIndex > 7 then none
  else some (((byte >>> (7 - bitIndex)) &&& 1) > 0)

/-- `BitStream::read_ms_bits_of_byte` for the range `rstart..rend`. -/
def read_ms_bits_of_byte (byte : Nat) (rstart rend : Nat) : Option Nat :=
  if rend = 0 ∨ rend > 8 then none
  else some ((byte >>> (8 - rend)) &&& (255 >>> (8 - (rend - rstart))))

/-- `BitStream::read_bit`. -/
def readBit (s : BitStream) : Option (Bool × BitStream) :=
  match s.bytes with
  | [] => none
  | byte0 :: after =>
    let bit := read_ms_bit_of_byte byte0 s.bitIndex
    let bi := s.bitIndex + 1
    let s1 : BitStream := if bi ≥ 8 then ⟨after, 0⟩ else ⟨byte0 :: after, bi⟩
    bit.map (fun b => (b, s1))

/-- `BitStream::read_u8_up_until_end_of_byte0`. -/
def read_u8_up_until_end_of_byte0 (s : BitStream) (bitCount : Nat) :
    Option (Nat × BitStream) :=
  if bitCount = 0 then some (0, s)
  else
    let istart := s.bitIndex
    let iend := s.bitIndex + bitCount
    if iend > 8 then none
    else
      match s.bytes with
      | [] => none
      | byte0 :: after =>
        match read_ms_bits_of_byte byte0 istart iend with
        | none => none
        | some bits =>
          let bi := s.bitIndex + bitCount
          let s1 : BitStream := if bi ≥ 8 then ⟨after, 0⟩ else ⟨byte0 :: after, bi⟩
          some (bits, s1)

/-- `BitStream::u32_from_bytes`; `wrapping_shl` becomes `% 2^32`. -/
def u32_from_bytes (bytes : List Nat) : Nat :=
  bytes.foldl (fun result byte => ((result <<< 8) % 4294967296) ||| byte) 0

/-- `BitStream::read_aligned_bytes`. -/
def read_aligned_bytes (s : BitStream) (byteCount : Nat) :
    Option (List Nat × BitStream) :=
  if s.bitIndex > 0 then none
  else if byteCount > s.bytes.length then none
  else some (s.bytes.take byteCount, ⟨s.bytes.drop byteCount, s.bitIndex⟩)

/-- `BitStream::read_u32_from_aligned_bytes`. -/
def read_u32_from_aligned_bytes (s : BitStream) (byteCount : Nat) :
    Option (Nat × BitStream) :=
  if byteCount = 0 then some (0, s)
  else (read_aligned_bytes s byteCount).map
    (fun r => (u32_from_bytes r.1, r.2))

/-- `BitStream::read_u32`: big-endian read of `bitCount` bits, split into a
left part (rest of byte 0), a middle of whole bytes and a right part.  The
Rust `u32` shifts discard high bits, hence the `% 2^32`. -/
def readU32 (s : BitStream) (bitCount : Nat) : Option (Nat × BitStream) :=
  let remaining0 := 8 - s.bitIndex
  let leftCount := min remaining0 bitCount
  let rightCount := (bitCount - remaining0) % 8
  let middleCount := bitCount - leftCount - rightCount
  let middleBytes := middleCount / 8
  (read_u8_up_until_end_of_byte0 s leftCount).bind (fun l =>
  (read_u32_from_aligned_bytes l.2 middleBytes).bind (fun m =>
  (read_u8_up_until_end_of_byte0 m.2 rightCount).map (fun r =>
  (((((l.1 <<< middleCount) % 4294967296 ||| m.1) <<< rightCount) % 4294967296)
      ||| r.1, r.2))))

/-- `BitStream::read_ls_bit_of_u32`. -/
def read_ls_bit_of_u32 (word : Nat) (bitIndex : Nat) : Option Bool :=
  if bitIndex > 32 then none
  else some (((word >>> bitIndex) &&& 1) > 0)

/-- Number of unread bits; the termination measure for the parser loops. -/
def bitsRemaining (s : BitStream) : Nat := 8 * s.bytes.length - s.bitIndex

theorem read_u8_up_bits {s : BitStream} {c v : Nat} {s1 : BitStream}
    (h : read_u8_up_until_end_of_byte0 s c = some (v, s1)) :
    bitsRemaining s = bitsRemaining s1 + c := by
  obtain ⟨bytes, bi⟩ := s
  unfold read_u8_up_until_end_of_byte0 at h
  simp only at h
  split at h
  · simp only [Option.some.injEq, Prod.mk.injEq] at h
    simp only [← h.2]
    omega
  · split at h
    · exact absurd h (by simp)
    · split at h
      · exact absurd h (by simp)
      · split at h
        · exact absurd h (by simp)
        · split at h <;>
          · simp only [Option.some.injEq, Prod.mk.injEq] at h
            simp only [← h.2, bitsRemaining, List.length_cons] at *
            omega

theorem read_aligned_bits {s : BitStream} {c : Nat} {bs : List Nat}
    {s1 : BitStream} (h : read_aligned_bytes s c = some (bs, s1)) :
    bitsRemaining s = bitsRemaining s1 + 8 * c := by
  unfold read_aligned_bytes at h
  by_cases h0 : s.bitIndex > 0
  · simp [h0] at h
  · simp only [if_neg h0] at h
    by_cases h1 : c > s.bytes.length
    · simp [h1] at h
    · simp only [if_neg h1] at h
      simp only [Option.some.injEq, Prod.mk.injEq] at h
      rw [← h.2]
      simp only [bitsRemaining, List.length_drop]
      omega

theorem read_u32_aligned_bits {s : BitStream} {c v : Nat} {s1 : BitStream}
    (h : read_u32_from_aligned_bytes s c = some (v, s1)) :
    bitsRemaining s = bitsRemaining s1 + 8 * c := by
  unfold read_u32_from_aligned_bytes at h
  by_cases hc : c = 0
  · simp [hc] at h
    simp [h.2, hc]
  · simp only [if_neg hc, Option.map_eq_some'] at h
    obtain ⟨⟨bs, s2⟩, hr, he⟩ := h
    simp only [Prod.mk.injEq] at he
    rw [← he.2]
    exact read_aligned_bits hr

theorem readU32_bits {s : BitStream} {n v : Nat} {s1 : BitStream}
    (h : readU32 s n = some (v, s1)) :
    bitsRemaining s = bitsRemaining s1 + n := by
  unfold readU32 at h
  simp only [Option.bind_eq_some, Option.map_eq_some'] at h
  obtain ⟨⟨lv, ls⟩, hl, ⟨mv, ms⟩, hm, ⟨rv, rs⟩, hr, he⟩ := h
  simp only [Prod.mk.injEq] at he
  have h1 := read_u8_up_bits hl
  have h2 := read_u32_aligned_bits hm
  have h3 := read_u8_up_bits hr
  dsimp only at h2 h3
  rw [← he.2]
  omega

theorem readBit_bits {s : BitStream} {b : Bool} {s1 : BitStream}
    (h : readBit s = some (b, s1)) :
    bitsRemaining s = bitsRemaining s1 + 1 := by
  obtain ⟨bytes, bi⟩ := s
  unfold readBit read_ms_bit_of_byte at h
  dsimp only at h
  repeat' split at h
  all_goals first
  | exact Option.noConfusion h
  | (rw [Option.map_some'] at h;
     injection h with hp;
     rw [Prod.ext_iff] at hp;
     obtain ⟨h1, h2⟩ := hp;
     subst h2;
     simp only [bitsRemaining, List.length_cons];
     omega)

end BitStream

/-- Decode Target Indication (`DecodeTargetIndication` in the source). -/
inductive DecodeTargetIndication
  | NotPresent
  | Discardable
  | Switch
  | Required
deriving DecidableEq

/-- `DecodeTargetIndication::from_u2`. -/
def DecodeTargetIndication.from_u2 (u2 : Nat) : Option DecodeTargetIndication :=
  match u2 with
  | 0 => some DecodeTargetIndication.NotPresent
  | 1 => some DecodeTargetIndication.Discardable
  | 2 => some DecodeTargetIndication.Switch
  | 3 => some DecodeTargetIndication.Required
  | _ => none

/-- `ParseError` of the Dependency Descriptor parser. -/
inductive ParseError
  | NotEnoughBits
  | UnknownSharedStructure
  | UnknownActiveDecodeTargetBitmask
  | InvalidTemplateId
  | InvalidSpatialLayerId
  | InvalidTemporalLayerId
deriving DecidableEq

/-- `Resolution` (`max_render_width/height`, both the wire value plus one). -/
structure Resolution where
  max_render_width : Nat
  max_render_height : Nat
deriving DecidableEq

/-- `SharedStructureTemplate`: one Frame Dependency Template. -/
structure SharedStructureTemplate where
  spatial_layer_id : Nat
  temporal_layer_id : Nat
  decode_target_indication_by_decode_target_index : List DecodeTargetIndication
  referred_relative_frame_numbers : List Nat
  previous_relative_frame_number_by_chain_index : List Nat
deriving DecidableEq

/-- `SharedStructure`: the cached Frame Dependency Structure. -/
structure SharedStructure where
  decode_target_count : Nat
  chain_count : Nat
  protecting_chain_index_by_decode_target_index : List Nat
  resolution_by_spatial_id : Option (List Resolution)
  template_by_id_minus_offset : List SharedStructureTemplate
  template_id_offset : Nat
deriving DecidableEq

/-- `SharedStructure::layer_ids_by_decode_target_index`: per decode target,
the running maxima of spatial and temporal ids over the templates whose DTI
at that index exists and is not `NotPresent`. -/
def SharedStructure.layer_ids_by_decode_target_index (ss : SharedStructure) :
    List (Nat × Nat) :=
  (List.range ss.decode_target_count).map (fun decode_target_index =>
    ss.template_by_id_minus_offset.foldl
      (fun ids template =>
        match template.decode_target_indication_by_decode_target_index.get?
            decode_target_index with
        | some dti =>
          if dti ≠ DecodeTargetIndication.NotPresent then
            (max ids.1 template.spatial_layer_id,
             max ids.2 template.temporal_layer_id)
          else ids
        | none => ids)
      (0, 0))

/-- `MandatoryFields` of the descriptor. -/
structure MandatoryFields where
  start_of_frame : Bool
  end_of_frame : Bool
  template_id : Nat
  frame_number : Nat
deriving DecidableEq

/-- `CustomFlags` (custom_dtis/fdiffs/chains flags). -/
structure CustomFlags where
  dtis : Bool
  fdiffs : Bool
  chains : Bool
deriving DecidableEq

/-- `ExtendedFields` as carried out of `extended_descriptor_fields`. -/
structure ExtendedFields where
  shared_structure : Option SharedStructure
  active_decode_targets_bitmask : Option Nat
deriving DecidableEq

/-- `FrameDependencyDefinition`. -/
structure FrameDependencyDefinition where
  spatial_layer_id : Nat
  temporal_layer_id : Nat
  decode_target_indication_by_decode_target_index : List DecodeTargetIndication
  referred_relative_frame_numbers : List Nat
  previous_relative_frame_number_by_chain_index : List Nat
  resolution : Option Resolution
deriving DecidableEq

/-- `DecodeTarget` in the parsed output. -/
structure DecodeTarget where
  spatial_layer_id : Nat
  temporal_layer_id : Nat
  active : Bool
  indication : DecodeTargetIndication
  protecting_chain_index : Option Nat
deriving DecidableEq

/-- `ParsedDependencyDescriptor` (`udpated_...` keeps the source typo). -/
structure ParsedDependencyDescriptor where
  truncated_frame_number : Nat
  spatial_layer_id : Nat
  temporal_layer_id : Nat
  resolution : Option Resolution
  referred_relative_frame_numbers : List Nat
  previous_relative_frame_number_by_chain_index : List Nat
  is_first_packet : Bool
  is_last_packet : Bool
  decode_targets : List DecodeTarget
  updated_shared_structure : Option SharedStructure
  udpated_active_decode_targets_bitmask : Option Nat
deriving DecidableEq

/-- `Parser::f`: `n` bits as a big-endian unsigned. -/
def f (s : BitStream) (n : Nat) : Except ParseError (Nat × BitStream) :=
  match BitStream.readU32 s n with
  | none => Except.error ParseError.NotEnoughBits
  | some r => Except.ok r

/-- `Parser::f1`: one bit. -/
def f1 (s : BitStream) : Except ParseError (Bool × BitStream) :=
  match BitStream.readBit s with
  | none => Except.error ParseError.NotEnoughBits
  | some r => Except.ok r

theorem f_bits {s : BitStream} {n v : Nat} {s1 : BitStream}
    (h : f s n = Except.ok (v, s1)) :
    BitStream.bitsRemaining s = BitStream.bitsRemaining s1 + n := by
  unfold f at h
  cases hr : BitStream.readU32 s n with
  | none => rw [hr] at h; exact Except.noConfusion h
  | some r =>
    rw [hr] at h
    cases h
    exact BitStream.readU32_bits hr

theorem f1_bits {s : BitStream} {b : Bool} {s1 : BitStream}
    (h : f1 s = Except.ok (b, s1)) :
    BitStream.bitsRemaining s = BitStream.bitsRemaining s1 + 1 := by
  unfold f1 at h
  cases hr : BitStream.readBit s with
  | none => rw [hr] at h; exact Except.noConfusion h
  | some r =>
    rw [hr] at h
    cases h
    exact BitStream.readBit_bits hr

/-- `u8::checked_add`. -/
def checkedAddU8 (a b : Nat) : Option Nat :=
  if a + b ≤ 255 then some (a + b) else none

/-- `Parser::mandatory_descriptor_fields`. -/
def mandatory_descriptor_fields (s : BitStream) :
    Except ParseError (MandatoryFields × BitStream) :=
  match f1 s with
  | Except.error e => Except.error e
  | Except.ok (start_of_frame, s) =>
    match f1 s with
    | Except.error e => Except.error e
    | Except.ok (end_of_frame, s) =>
      match f s 6 with
      | Except.error e => Except.error e
      | Except.ok (template_id, s) =>
        match f s 16 with
        | Except.error e => Except.error e
        | Except.ok (frame_number, s) =>
          Except.ok (⟨start_of_frame, end_of_frame, template_id, frame_number⟩, s)

/-- The freshly created template at the head of `template_layers`. -/
def initialTemplate : SharedStructureTemplate := ⟨0, 0, [], [], []⟩

/-- Loop body of `Parser::template_layers`.  `last().unwrap()` is modelled
with `getLastD`; the list is never empty so the default is never used.
The `idc == 2` arm reproduces the source exactly: it adds one to the
*temporal* layer id of the previous template to form the next spatial id.
The fuel argument only bounds the recursion; each iteration consumes two
bits, so starting from one more than the remaining bit count the zero-fuel
arm is never reached. -/
def template_layers_loop (fuel : Nat) (s : BitStream)
    (templates : List SharedStructureTemplate) :
    Except ParseError (List SharedStructureTemplate × BitStream) :=
  match fuel with
  | 0 => Except.error ParseError.NotEnoughBits
  | fuel + 1 =>
    match f s 2 with
    | Except.error e => Except.error e
    | Except.ok (next_layer_idc, s1) =>
      if next_layer_idc = 3 then Except.ok (templates, s1)
      else
        let last := templates.getLastD initialTemplate
        let nextE : Except ParseError SharedStructureTemplate :=
          if next_layer_idc = 0 then Except.ok last
          else if next_layer_idc = 1 then
            match checkedAddU8 last.temporal_layer_id 1 with
            | none => Except.error ParseError.InvalidTemporalLayerId
            | some t => Except.ok { last with temporal_layer_id := t }
          else
            -- next_layer_idc = 2 (f reads 2 bits, so no other value occurs)
            match checkedAddU8 last.temporal_layer_id 1 with
            | none => Except.error ParseError.InvalidSpatialLayerId
            | some sp =>
              Except.ok { last with spatial_layer_id := sp, temporal_layer_id := 0 }
        match nextE with
        | Except.error e => Except.error e
        | Except.ok next => template_layers_loop fuel s1 (templates ++ [next])

/-- `Parser::template_layers`. -/
def template_layers (s : BitStream) (_decode_target_count : Nat) :
    Except ParseError (List SharedStructureTemplate × BitStream) :=
  template_layers_loop (BitStream.bitsRemaining s + 1) s [initialTemplate]

/-- Inner loop of `Parser::render_resolutions` (`0..=max_spatial_id`). -/
def render_resolutions_loop (s : BitStream) (count : Nat)
    (acc : List Resolution) : Except ParseError (List Resolution × BitStream) :=
  match count with
  | 0 => Except.ok (acc, s)
  | count + 1 => do
    let (w, s) ← f s 16
    let (h, s) ← f s 16
    render_resolutions_loop s count (acc ++ [⟨w + 1, h + 1⟩])

/-- `Parser::render_resolutions`. -/
def render_resolutions (s : BitStream) (max_spatial_id : Nat) :
    Except ParseError (List Resolution × BitStream) :=
  render_resolutions_loop s (max_spatial_id + 1) []

/-- `decode_target_count` two-bit DTIs, as read by `template_dtis` and
`frame_dtis`.  `from_u2(..).unwrap()` cannot fail on a two-bit value; the
`getD` default is never used. -/
def read_dtis (s : BitStream) (count : Nat)
    (acc : List DecodeTargetIndication) :
    Except ParseError (List DecodeTargetIndication × BitStream) :=
  match count with
  | 0 => Except.ok (acc, s)
  | c + 1 => do
    let (v, s) ← f s 2
    let dti := (DecodeTargetIndication.from_u2 v).getD
      DecodeTargetIndication.NotPresent
    read_dtis s c (acc ++ [dti])

/-- `Parser::template_dtis`. -/
def template_dtis (templates : List SharedStructureTemplate)
    (decode_target_count : Nat) (s : BitStream) :
    Except ParseError (List SharedStructureTemplate × BitStream) :=
  match templates with
  | [] => Except.ok ([], s)
  | t :: ts => do
    let (dtis, s) ← read_dtis s decode_target_count []
    let t1 := { t with decode_target_indication_by_decode_target_index :=
      t.decode_target_indication_by_decode_target_index ++ dtis }
    let (ts1, s) ← template_dtis ts decode_target_count s
    return (t1 :: ts1, s)

/-- `Parser::frame_dtis`. -/
def frame_dtis (s : BitStream) (decode_target_count : Nat) :
    Except ParseError (List DecodeTargetIndication × BitStream) :=
  read_dtis s decode_target_count []

/-- Inner loop of `Parser::template_fdiffs`: `(flag, fdiff_minus_one)` pairs
until a zero flag.  Each iteration consumes five bits, so the fuel below
never runs out. -/
def template_fdiffs_loop (fuel : Nat) (s : BitStream) (acc : List Nat) :
    Except ParseError (List Nat × BitStream) :=
  match fuel with
  | 0 => Except.error ParseError.NotEnoughBits
  | fuel + 1 =>
    match f1 s with
    | Except.error e => Except.error e
    | Except.ok (fdiff_follows_flag, s1) =>
      if fdiff_follows_flag then
        match f s1 4 with
        | Except.error e => Except.error e
        | Except.ok (fdiff_minus_one, s2) =>
          template_fdiffs_loop fuel s2 (acc ++ [fdiff_minus_one + 1])
      else Except.ok (acc, s1)

/-- `Parser::template_fdiffs`. -/
def template_fdiffs (templates : List SharedStructureTemplate)
    (s : BitStream) :
    Except ParseError (List SharedStructureTemplate × BitStream) :=
  match templates with
  | [] => Except.ok ([], s)
  | t :: ts => do
    let (fdiffs, s) ← template_fdiffs_loop (BitStream.bitsRemaining s + 1) s []
    let t1 := { t with referred_relative_frame_numbers :=
      t.referred_relative_frame_numbers ++ fdiffs }
    let (ts1, s) ← template_fdiffs ts s
    return (t1 :: ts1, s)

/-- Loop of `Parser::frame_fdiffs`: `(2-bit size, size*4-bit value)` pairs
until a zero size.  Each iteration consumes at least six bits, so the fuel
below never runs out. -/
def frame_fdiffs_loop (fuel : Nat) (s : BitStream) (acc : List Nat) :
    Except ParseError (List Nat × BitStream) :=
  match fuel with
  | 0 => Except.error ParseError.NotEnoughBits
  | fuel + 1 =>
    match f s 2 with
    | Except.error e => Except.error e
    | Except.ok (v, s1) =>
      let frame_diff_size := v * 4
      if frame_diff_size = 0 then Except.ok (acc, s1)
      else
        match f s1 frame_diff_size with
        | Except.error e => Except.error e
        | Except.ok (fdiff_minus_one, s2) =>
          frame_fdiffs_loop fuel s2 (acc ++ [fdiff_minus_one + 1])

/-- `Parser::frame_fdiffs`. -/
def frame_fdiffs (s : BitStream) :
    Except ParseError (List Nat × BitStream) :=
  frame_fdiffs_loop (BitStream.bitsRemaining s + 1) s []

/-- `8 - leading_zeros()` of a `u8` value: the bit width. -/
def u8_bit_width (n : Nat) : Nat :=
  if 128 ≤ n then 8 else if 64 ≤ n then 7 else if 32 ≤ n then 6
  else if 16 ≤ n then 5 else if 8 ≤ n then 4 else if 4 ≤ n then 3
  else if 2 ≤ n then 2 else if 1 ≤ n then 1 else 0

/-- `Parser::ns`: the AV1 non-symmetric unsigned bounded by `n - 1`. -/
def ns (s : BitStream) (possible_values_count : Nat) :
    Except ParseError (Nat × BitStream) :=
  if possible_values_count = 0 then Except.ok (0, s)
  else
    let w := u8_bit_width possible_values_count
    let m := (1 <<< w) - possible_values_count
    match f s (w - 1) with
    | Except.error e => Except.error e
    | Except.ok (v, s1) =>
      if v < m then Except.ok (v, s1)
      else
        match f s1 1 with
        | Except.error e => Except.error e
        | Except.ok (extra_bit, s2) =>
          Except.ok ((v <<< 1) - m + extra_bit, s2)

/-- Per-decode-target `ns(chain_count)` reads of `template_chains`. -/
def read_protecting_chain_indices (s : BitStream) (count chain_count : Nat)
    (acc : List Nat) : Except ParseError (List Nat × BitStream) :=
  match count with
  | 0 => Except.ok (acc, s)
  | c + 1 => do
    let (protecting_chain_index, s) ← ns s chain_count
    read_protecting_chain_indices s c chain_count (acc ++ [protecting_chain_index])

/-- Per-template 4-bit chain fdiffs of `template_chains`. -/
def read_template_chain_fdiffs (s : BitStream) (count : Nat)
    (acc : List Nat) : Except ParseError (List Nat × BitStream) :=
  match count with
  | 0 => Except.ok (acc, s)
  | c + 1 => do
    let (previous_frame_number_diff, s) ← f s 4
    read_template_chain_fdiffs s c (acc ++ [previous_frame_number_diff])

/-- The per-template loop of `template_chains`. -/
def template_chains_templates (templates : List SharedStructureTemplate)
    (chain_count : Nat) (s : BitStream) :
    Except ParseError (List SharedStructureTemplate × BitStream) :=
  match templates with
  | [] => Except.ok ([], s)
  | t :: ts => do
    let (fdiffs, s) ← read_template_chain_fdiffs s chain_count []
    let t1 := { t with previous_relative_frame_number_by_chain_index :=
      t.previous_relative_frame_number_by_chain_index ++ fdiffs }
    let (ts1, s) ← template_chains_templates ts chain_count s
    return (t1 :: ts1, s)

/-- `Parser::template_chains`. -/
def template_chains (templates : List SharedStructureTemplate)
    (decode_target_count : Nat) (s : BitStream) :
    Except ParseError ((Nat × List Nat) × List SharedStructureTemplate × BitStream) := do
  let (chain_count, s) ← ns s (decode_target_count + 1)
  if chain_count = 0 then
    return ((chain_count, []), templates, s)
  else
    let (protecting_chain_index_by_decode_target_index, s) ←
      read_protecting_chain_indices s decode_target_count chain_count []
    let (templates, s) ← template_chains_templates templates chain_count s
    return ((chain_count, protecting_chain_index_by_decode_target_index),
      templates, s)

/-- `Parser::frame_chains`: `chain_count` eight-bit chain fdiffs. -/
def frame_chains_loop (s : BitStream) (count : Nat) (acc : List Nat) :
    Except ParseError (List Nat × BitStream) :=
  match count with
  | 0 => Except.ok (acc, s)
  | c + 1 => do
    let (frame_chain_fdiff, s) ← f s 8
    frame_chains_loop s c (acc ++ [frame_chain_fdiff])

/-- `Parser::frame_chains`. -/
def frame_chains (s : BitStream) (chain_count : Nat) :
    Except ParseError (List Nat × BitStream) :=
  frame_chains_loop s chain_count []

/-- `Parser::template_dependency_structure`. -/
def template_dependency_structure (s : BitStream) :
    Except ParseError (SharedStructure × BitStream) := do
  let (template_id_offset, s) ← f s 6
  let (dt_cnt_minus_one, s) ← f s 5
  let decode_target_count := dt_cnt_minus_one + 1
  let (templates, s) ← template_layers s decode_target_count
  let (templates, s) ← template_dtis templates decode_target_count s
  let (templates, s) ← template_fdiffs templates s
  let (chainsResult, templates, s) ←
    template_chains templates decode_target_count s
  let (resolutions_present_flag, s) ← f1 s
  let (resolution_by_spatial_id, s) ←
    if resolutions_present_flag then
      match (templates.map
          (fun template => template.spatial_layer_id)).max? with
      | some max_spatial_id => do
        let (resolutions, s) ← render_resolutions s max_spatial_id
        pure (some resolutions, s)
      | none => pure (some ([] : List Resolution), s)
    else pure ((none : Option (List Resolution)), s)
  return ({ decode_target_count := decode_target_count
            chain_count := chainsResult.1
            protecting_chain_index_by_decode_target_index := chainsResult.2
            resolution_by_spatial_id := resolution_by_spatial_id
            template_by_id_minus_offset := templates
            template_id_offset := template_id_offset }, s)

/-- `Parser::no_extended_descriptor_fields`. -/
def no_extended_descriptor_fields : CustomFlags × Option ExtendedFields :=
  (⟨false, false, false⟩, none)

/-- `Parser::extended_descriptor_fields`: the five flags, the optional
structure and the optional bitmask.  When the structure is present the
bitmask defaults to `(1 <<< decode_target_count) - 1` (cast to `u32`) and
is overwritten by a `decode_target_count`-bit read only when
`active_decode_targets_present_flag` is set; without a structure in the
packet no bitmask bits are consumed. -/
def extended_descriptor_fields (s : BitStream) :
    Except ParseError ((CustomFlags × Option ExtendedFields) × BitStream) :=
  match f1 s with
  | Except.error e => Except.error e
  | Except.ok (template_dependency_structure_present_flag, s) =>
    match f1 s with
    | Except.error e => Except.error e
    | Except.ok (active_decode_targets_present_flag, s) =>
      match f1 s with
      | Except.error e => Except.error e
      | Except.ok (custom_dtis_flag, s) =>
        match f1 s with
        | Except.error e => Except.error e
        | Except.ok (custom_fdiffs_flag, s) =>
          match f1 s with
          | Except.error e => Except.error e
          | Except.ok (custom_chains_flag, s) =>
            let custom_frame_dependency_flags : CustomFlags :=
              ⟨custom_dtis_flag, custom_fdiffs_flag, custom_chains_flag⟩
            if template_dependency_structure_present_flag then
              match template_dependency_structure s with
              | Except.error e => Except.error e
              | Except.ok (tds, s) =>
                let decode_target_count := tds.decode_target_count
                let defaultMask := ((1 <<< decode_target_count) - 1) % 4294967296
                if active_decode_targets_present_flag then
                  match f s decode_target_count with
                  | Except.error e => Except.error e
                  | Except.ok (bitmask, s) =>
                    Except.ok ((custom_frame_dependency_flags,
                      some ⟨some tds, some bitmask⟩), s)
                else
                  Except.ok ((custom_frame_dependency_flags,
                    some ⟨some tds, some defaultMask⟩), s)
            else
              Except.ok ((custom_frame_dependency_flags,
                some ⟨none, none⟩), s)

/-- `Parser::frame_dependency_definition`. -/
def frame_dependency_definition (s : BitStream)
    (shared_structure : SharedStructure) (template_id : Nat)
    (custom_flags : CustomFlags) :
    Except ParseError (FrameDependencyDefinition × BitStream) :=
  let template_id_minus_offset :=
    (template_id + 64 - shared_structure.template_id_offset) % 64
  match shared_structure.template_by_id_minus_offset.get?
      template_id_minus_offset with
  | none => Except.error ParseError.InvalidTemplateId
  | some template => do
    let spatial_layer_id := template.spatial_layer_id
    let temporal_layer_id := template.temporal_layer_id
    let (decode_target_indication_by_decode_target_index, s) ←
      if custom_flags.dtis then
        frame_dtis s shared_structure.decode_target_count
      else
        pure (template.decode_target_indication_by_decode_target_index, s)
    let (referred_frame_number_diffs, s) ←
      if custom_flags.fdiffs then frame_fdiffs s
      else pure (template.referred_relative_frame_numbers, s)
    let (previous_frame_number_diff_by_chain_index, s) ←
      if custom_flags.chains then
        frame_chains s shared_structure.chain_count
      else
        pure (template.previous_relative_frame_number_by_chain_index, s)
    let resolution := shared_structure.resolution_by_spatial_id.bind
      (fun resolution_by_spatial_id =>
        resolution_by_spatial_id.get? spatial_layer_id)
    return ({ spatial_layer_id := spatial_layer_id
              temporal_layer_id := temporal_layer_id
              decode_target_indication_by_decode_target_index :=
                decode_target_indication_by_decode_target_index
              referred_relative_frame_numbers := referred_frame_number_diffs
              previous_relative_frame_number_by_chain_index :=
                previous_frame_number_diff_by_chain_index
              resolution := resolution }, s)

/-- The tail of `Parser::dependency_descriptor` after the extended-fields
decision: resolve the shared structure and bitmask (packet value first,
then the cached one), read the frame dependency definition and build the
decode targets. -/
def dd_tail (mandatory_fields : MandatoryFields) (custom_flags : CustomFlags)
    (extended_fields : Option ExtendedFields) (s : BitStream)
    (latest_shared_structure : Option SharedStructure)
    (latest_active_decode_targets_bitmask : Option Nat) :
    Except ParseError ParsedDependencyDescriptor :=
  match (extended_fields.bind
      (fun ef => ef.shared_structure)).or latest_shared_structure with
  | none => Except.error ParseError.UnknownSharedStructure
  | some shared_structure =>
    match (extended_fields.bind
        (fun ef => ef.active_decode_targets_bitmask)).or
        latest_active_decode_targets_bitmask with
    | none => Except.error ParseError.UnknownActiveDecodeTargetBitmask
    | some active_decode_targets_bitmask => do
      let (frame_dependency_def, _s) ← frame_dependency_definition s
        shared_structure mandatory_fields.template_id custom_flags
      let layer_ids := shared_structure.layer_ids_by_decode_target_index
      let decode_targets := layer_ids.enum.map
        (fun p =>
          let decode_target_index := p.1
          let active := (BitStream.read_ls_bit_of_u32
            active_decode_targets_bitmask decode_target_index).getD false
          let indication :=
            (frame_dependency_def.decode_target_indication_by_decode_target_index.get?
              decode_target_index).getD DecodeTargetIndication.NotPresent
          let protecting_chain_index :=
            shared_structure.protecting_chain_index_by_decode_target_index.get?
              decode_target_index
          ({ spatial_layer_id := p.2.1
             temporal_layer_id := p.2.2
             active := active
             indication := indication
             protecting_chain_index := protecting_chain_index } : DecodeTarget))
      return { truncated_frame_number := mandatory_fields.frame_number
               spatial_layer_id := frame_dependency_def.spatial_layer_id
               temporal_layer_id := frame_dependency_def.temporal_layer_id
               resolution := frame_dependency_def.resolution
               referred_relative_frame_numbers :=
                 frame_dependency_def.referred_relative_frame_numbers
               previous_relative_frame_number_by_chain_index :=
                 frame_dependency_def.previous_relative_frame_number_by_chain_index
               is_first_packet := mandatory_fields.start_of_frame
               is_last_packet := mandatory_fields.end_of_frame
               decode_targets := decode_targets
               udpated_active_decode_targets_bitmask := extended_fields.bind
                 (fun ef => ef.active_decode_targets_bitmask)
               updated_shared_structure := extended_fields.bind
                 (fun ef => ef.shared_structure) }

/-- `Parser::dependency_descriptor`: the whole descriptor against the
cached shared structure and cached bitmask. -/
def dependency_descriptor (s : BitStream)
    (latest_shared_structure : Option SharedStructure)
    (latest_active_decode_targets_bitmask : Option Nat) :
    Except ParseError ParsedDependencyDescriptor :=
  match mandatory_descriptor_fields s with
  | Except.error e => Except.error e
  | Except.ok (mandatory_fields, s) =>
    match (if !s.isEmpty then extended_descriptor_fields s
           else Except.ok (no_extended_descriptor_fields, s)) with
    | Except.error e => Except.error e
    | Except.ok ((custom_flags, extended_fields), s) =>
      dd_tail mandatory_fields custom_flags extended_fields s
        latest_shared_structure latest_active_decode_targets_bitmask

/-- `UnparsedSerializedDescriptor::parse`. -/
def parse_dependency_descriptor (bytes : List Nat)
    (latest_shared_structure : Option SharedStructure)
    (latest_active_decode_targets_bitmask : Option Nat) :
    Except ParseError ParsedDependencyDescriptor :=
  dependency_descriptor (BitStream.new bytes) latest_shared_structure
    latest_active_decode_targets_bitmask

end Dd

namespace Ext

/-- The RTP header-extension kinds of ext.rs. -/
inductive Extension
  | AbsoluteSendTime
  | AudioLevel
  | TransmissionTimeOffset
  | VideoOrientation
  | TransportSequenceNumber
  | PlayoutDelay
  | VideoContentType
  | VideoTiming
  | RtpStreamId
  | RepairedRtpStreamId
  | RtpMid
  | FrameMarking
  | ColorSpace
  | VideoLayersAllocation
  | UnknownUri
deriving DecidableEq

/-- `MapEntry`: a bound extension kind plus its negotiation lock. -/
structure MapEntry where
  ext : Extension
  locked : Bool
deriving DecidableEq

/-- `ExtensionMap`: fourteen slots, slot 0 is extmap id 1. -/
abbrev ExtensionMap := List (Option MapEntry)

/-- `ExtensionMap::empty`. -/
def emptyMap : ExtensionMap := List.replicate 14 none

/-- `Vec::swap` on two in-range positions. -/
def listSwap (l : ExtensionMap) (i j : Nat) : ExtensionMap :=
  let a := l.getD i none
  let b := l.getD j none
  (l.set i b).set j a

/-- `ExtensionMap::swap`: move the entry bound to `ext` to slot `id - 1`
unless the moved entry is locked; lock it on success.  `self.0[old_index]`
is `Some` whenever `findIdx?` hits, so the `none` arm is never taken. -/
def swap (m : ExtensionMap) (id : Nat) (ext : Extension) : ExtensionMap :=
  if id < 1 ∨ id > 14 then m
  else
    let new_index := id - 1
    match m.findIdx? (fun e => e.map (fun me => me.ext) == some ext) with
    | none => m
    | some old_index =>
      match m.getD old_index none with
      | none => m
      | some old =>
        let is_change := new_index ≠ old_index
        if is_change ∧ old.locked then m
        else
          let m1 := m.set old_index (some { old with locked := true })
          if ¬ is_change then m1
          else listSwap m1 old_index new_index

/-- `ExtensionMap::remap`. -/
def remap (m : ExtensionMap) (remote_exts : List (Nat × Extension)) :
    ExtensionMap :=
  remote_exts.foldl (fun m p => swap m p.1 p.2) m

/-- `ExtensionMap::set` (lock cleared). -/
def setExt (m : ExtensionMap) (id : Nat) (ext : Extension) : ExtensionMap :=
  if id < 1 ∨ id > 14 then m
  else m.set (id - 1) (some ⟨ext, false⟩)

/-- `read_bits` of ext.rs on one byte, range `rstart..rend` (callers keep
`rend ≤ 8`). -/
def read_bits (bits rstart rend : Nat) : Nat :=
  (bits >>> (8 - rend)) &&& (255 >>> (8 - (rend - rstart)))

/-- `read_bit` of ext.rs. -/
def read_bit (bits index : Nat) : Bool :=
  read_bits bits index (index + 1) > 0

/-- `split_byte_in2`. -/
def split_byte_in2 (byte : Nat) : List Nat :=
  [read_bits byte 0 4, read_bits byte 4 8]

/-- `split_byte_in4`. -/
def split_byte_in4 (byte : Nat) : List Nat :=
  [read_bits byte 0 2, read_bits byte 2 4, read_bits byte 4 6,
   read_bits byte 6 8]

/-- `truncated_bools_from_lower_4bits`: bits of the low nibble, least
significant first, truncated at the highest set bit. -/
def truncated_bools_from_lower_4bits (bits : Nat) : List Bool :=
  let step := (List.range 4).foldl
    (fun acc index =>
      let high := read_bit bits (7 - index)
      (acc.1 ++ [high], if high then index + 1 else acc.2))
    (([] : List Bool), 0)
  step.1.take step.2

/-- `split_at` of ext.rs (fallible). -/
def split_at (buf : List Nat) (mid : Nat) : Option (List Nat × List Nat) :=
  if mid > buf.length then none
  else some (buf.take mid, buf.drop mid)

/-- `div_round_up`. -/
def div_round_up (top bottom : Nat) : Nat :=
  if top = 0 then 0 else ((top - 1) / bottom) + 1

/-- Loop of `parse_leb_u64`; `orig` is the argument returned unchanged when
every byte has its continuation bit set.  For at most nine continuation
bytes this matches the `u64` arithmetic of the source; the `% 2^64` makes
the wrap explicit. -/
def parse_leb_u64_loop (bytes : List Nat) (index result : Nat)
    (orig : List Nat) : Nat × List Nat :=
  match bytes with
  | [] => (0, orig)
  | byte :: rest =>
    let is_last := ¬ read_bit byte 0
    let chunk := read_bits byte 1 8
    let result := (result ||| (chunk <<< (7 * index))) % 18446744073709551616
    if is_last then (result, rest)
    else parse_leb_u64_loop rest (index + 1) result orig

/-- `parse_leb_u64`: returns `(value, rest)`. -/
def parse_leb_u64 (bytes : List Nat) : Nat × List Nat :=
  parse_leb_u64_loop bytes 0 0 bytes

structure ResolutionAndFramerate where
  width : Nat
  height : Nat
  framerate : Nat
deriving DecidableEq

structure TemporalLayerAllocation where
  cumulative_kbps : Nat
deriving DecidableEq

structure SpatialLayerAllocation where
  temporal_layers : List TemporalLayerAllocation
  resolution_and_framerate : Option ResolutionAndFramerate
deriving DecidableEq

structure SimulcastStreamAllocation where
  spatial_layers : List SpatialLayerAllocation
deriving DecidableEq

/-- `VideoLayersAllocation`. -/
structure VideoLayersAllocation where
  current_simulcast_stream_index : Nat
  simulcast_streams : List SimulcastStreamAllocation
deriving DecidableEq

/-- The temporal-layer-bitrate loop: `count` consecutive LEB128 reads. -/
def read_lebs (bytes : List Nat) (count : Nat) : List Nat × List Nat :=
  match count with
  | 0 => ([], bytes)
  | c + 1 =>
    let r := parse_leb_u64 bytes
    let rest := read_lebs r.2 c
    (r.1 :: rest.1, rest.2)

/-- The optional resolution/framerate blocks: 5 bytes each while the buffer
lasts (the source's `filter_map` keeps failing once `split_at` fails). -/
def read_resolutions (bytes : List Nat) (count : Nat) :
    List ResolutionAndFramerate × List Nat :=
  match count with
  | 0 => ([], bytes)
  | c + 1 =>
    match split_at bytes 5 with
    | none => ([], bytes)
    | some (block, rest) =>
      let width := ((block.getD 0 0) <<< 8 ||| block.getD 1 0) + 1
      let height := ((block.getD 2 0) <<< 8 ||| block.getD 3 0) + 1
      let framerate := block.getD 4 0
      let restR := read_resolutions rest c
      (⟨width % 65536, height % 65536, framerate⟩ :: restR.1, restR.2)

/-- The queues threaded through the final construction of the streams. -/
structure BuildState where
  temporal_layer_counts : List Nat
  temporal_layer_bitrates : List Nat
  resolutions_and_framerates : List ResolutionAndFramerate
deriving DecidableEq

/-- The inner `filter_map` over one stream's spatial-layer flags: an active
layer pops a temporal-layer count (skipped entirely when that queue is
empty), up to that many bitrates and an optional resolution block. -/
def build_spatial_layers (flags : List Bool) (st : BuildState) :
    List SpatialLayerAllocation × BuildState :=
  match flags with
  | [] => ([], st)
  | active :: rest =>
    if active then
      match st.temporal_layer_counts with
      | [] => build_spatial_layers rest st
      | c :: tl_rest =>
        let taken := st.temporal_layer_bitrates.take c
        let temporal_layers := taken.map (fun k => (⟨k⟩ : TemporalLayerAllocation))
        let (rf, res_rest) :=
          match st.resolutions_and_framerates with
          | [] => ((none : Option ResolutionAndFramerate), [])
          | r :: rs => (some r, rs)
        let r := build_spatial_layers rest
          ⟨tl_rest, st.temporal_layer_bitrates.drop c, res_rest⟩
        (⟨temporal_layers, rf⟩ :: r.1, r.2)
    else
      let r := build_spatial_layers rest st
      (⟨[], none⟩ :: r.1, r.2)

/-- The outer `map` over the simulcast streams. -/
def build_streams (actives : List (List Bool)) (st : BuildState) :
    List SimulcastStreamAllocation :=
  match actives with
  | [] => []
  | flags :: rest =>
    let r := build_spatial_layers flags st
    ⟨r.1⟩ :: build_streams rest r.2

/-- `VideoLayersAllocation::parse`. -/
def VideoLayersAllocation.parse (buf : List Nat) :
    Option VideoLayersAllocation :=
  match buf with
  | [] => none
  | b0 :: after_b0 =>
    if b0 = 0 ∧ after_b0.isEmpty then
      some ⟨0, []⟩
    else
      let current_simulcast_stream_index := read_bits b0 0 2
      let simulcast_stream_count := read_bits b0 2 4 + 1
      let shared_spatial_layer_bitmask := read_bits b0 4 8
      let bitmasksO : Option (List (List Bool) × List Nat) :=
        if shared_spatial_layer_bitmask > 0 then
          some (List.replicate simulcast_stream_count
            (truncated_bools_from_lower_4bits shared_spatial_layer_bitmask),
            after_b0)
        else
          (split_at after_b0 (div_round_up simulcast_stream_count 2)).map
            (fun r =>
              (((r.1.flatMap split_byte_in2).take simulcast_stream_count).map
                truncated_bools_from_lower_4bits, r.2))
      bitmasksO.bind (fun br =>
        let spatial_layer_actives := br.1
        let after_spatial_layer_bitmasks := br.2
        let total_active_spatial_layer_count :=
          (spatial_layer_actives.flatten.filter (fun a => a)).length
        (split_at after_spatial_layer_bitmasks
            (div_round_up total_active_spatial_layer_count 4)).bind (fun tr =>
          let temporal_layer_counts :=
            (((tr.1.flatMap split_byte_in4).map (fun c => c + 1)).take
              total_active_spatial_layer_count)
          let total_temporal_layer_count := temporal_layer_counts.sum
          let lebr := read_lebs tr.2 total_temporal_layer_count
          let resr := read_resolutions lebr.2 total_active_spatial_layer_count
          let streams := build_streams spatial_layer_actives
            ⟨temporal_layer_counts, lebr.1, resr.1⟩
          some ⟨current_simulcast_stream_index, streams⟩))

end Ext

namespace Srtp

/-- `u32::to_be_bytes`. -/
def u32_to_be_bytes (x : Nat) : List Nat :=
  [x >>> 24 &&& 255, x >>> 16 &&& 255, x >>> 8 &&& 255, x &&& 255]

/-- `u64::to_be_bytes`. -/
def u64_to_be_bytes (x : Nat) : List Nat :=
  [x >>> 56 &&& 255, x >>> 48 &&& 255, x >>> 40 &&& 255, x >>> 32 &&& 255,
   x >>> 24 &&& 255, x >>> 16 &&& 255, x >>> 8 &&& 255, x &&& 255]

/-- `aes_128_cm_sha1_80::rtp_iv`: a zeroed 16-byte IV, the big-endian SSRC
written at 4..8, the big-endian 64-bit SRTP index XORed into 6..14, the
14-byte salt XORed into 0..14. -/
def rtp_iv (salt : List Nat) (ssrc srtp_index : Nat) : List Nat :=
  let iv0 := List.replicate 16 0
  let ssrc_be := u32_to_be_bytes ssrc
  let srtp_be := u64_to_be_bytes srtp_index
  let iv1 := (List.range 4).foldl
    (fun iv i => iv.set (4 + i) (ssrc_be.getD i 0)) iv0
  let iv2 := (List.range 8).foldl
    (fun iv i => iv.set (i + 6) ((iv.getD (i + 6) 0) ^^^ (srtp_be.getD i 0)))
    iv1
  (List.range 14).foldl
    (fun iv i => iv.set i ((iv.getD i 0) ^^^ (salt.getD i 0))) iv2

/-- Modelled from the specification text of §4.5: byte `i` of the IV is the
XOR of the SSRC contribution (bytes 4..8), the SRTP-index contribution
(bytes 6..14) and the salt contribution (bytes 0..14); bytes 14..16 carry
no contribution. -/
def rtp_iv_by_spec (salt : List Nat) (ssrc srtp_index : Nat) : List Nat :=
  (List.range 16).map (fun i =>
    let ssrcPart := if 4 ≤ i ∧ i < 8 then (u32_to_be_bytes ssrc).getD (i - 4) 0 else 0
    let idxPart :=
      if 6 ≤ i ∧ i < 14 then (u64_to_be_bytes srtp_index).getD (i - 6) 0 else 0
    let saltPart := if i < 14 then salt.getD i 0 else 0
    (ssrcPart ^^^ idxPart) ^^^ saltPart)

end Srtp

namespace Stats

/-- `Mid` stands in for the source's fixed-size media identifier string. -/
abbrev Mid := String

/-- `Rid` likewise. -/
abbrev Rid := String

/-- `Instant`s are modelled as naturals counting milliseconds, so the
one-second `TIMING_ADVANCE` is 1000. -/
def TIMING_ADVANCE : Nat := 1000

structure PeerStats where
  peer_bytes_rx : Nat
  peer_bytes_tx : Nat
  bytes_rx : Nat
  bytes_tx : Nat
  ts : Nat
deriving DecidableEq

structure MediaIngressStats where
  mid : Mid
  rid : Option Rid
  bytes_rx : Nat
  ts : Nat
deriving DecidableEq

structure MediaEgressStats where
  mid : Mid
  rid : Option Rid
  bytes_tx : Nat
  ts : Nat
deriving DecidableEq

inductive StatEvent
  | PeerStats (s : PeerStats)
  | MediaEgressStats (s : MediaEgressStats)
  | MediaIngressStats (s : MediaIngressStats)
deriving DecidableEq

/-- `StatsSnapshot`; the two hash maps become association lists whose order
stands for the source's iteration order. -/
structure StatsSnapshot where
  peer_tx : Nat
  peer_rx : Nat
  tx : Nat
  rx : Nat
  ingress : List ((Mid × Option Rid) × Nat)
  egress : List ((Mid × Option Rid) × Nat)
  ts : Nat
deriving DecidableEq

/-- `Stats`: cadence base plus the FIFO of pending events. -/
structure Stats where
  last_now : Nat
  events : List StatEvent
deriving DecidableEq

/-- `Stats::wants_timeout`. -/
def wants_timeout (st : Stats) (now : Nat) : Bool :=
  let min_step := st.last_now + TIMING_ADVANCE
  now ≥ min_step

/-- `Stats::do_handle_timeout`. -/
def do_handle_timeout (st : Stats) (snapshot : StatsSnapshot) : Stats :=
  let ts := snapshot.ts
  let event : PeerStats :=
    { peer_bytes_rx := snapshot.peer_rx
      peer_bytes_tx := snapshot.peer_tx
      bytes_rx := snapshot.rx
      bytes_tx := snapshot.tx
      ts := snapshot.ts }
  let events := st.events ++ [StatEvent.PeerStats event]
  let events := snapshot.ingress.foldl
    (fun evs p =>
      evs ++ [StatEvent.MediaIngressStats ⟨p.1.1, p.1.2, p.2, ts⟩]) events
  let events := snapshot.egress.foldl
    (fun evs p =>
      evs ++ [StatEvent.MediaEgressStats ⟨p.1.1, p.1.2, p.2, ts⟩]) events
  { last_now := snapshot.ts, events := events }

/-- `Stats::poll_timeout`. -/
def poll_timeout (st : Stats) : Option Nat :=
  some (st.last_now + TIMING_ADVANCE)

/-- `Stats::poll_output`: pop the front of the FIFO. -/
def poll_output (st : Stats) : Option StatEvent × Stats :=
  match st.events with
  | [] => (none, st)
  | e :: rest => (some e, { st with events := rest })

/-- Loop of `drain`: the fuel is the queue length, which `poll_output`
decreases by one at each step. -/
def drain_go (fuel : Nat) (st : Stats) : List StatEvent :=
  match fuel with
  | 0 => []
  | fuel + 1 =>
    match poll_output st with
    | (none, _) => []
    | (some e, st1) => e :: drain_go fuel st1

/-- Repeatedly calling `poll_output` until it yields nothing. -/
def drain (st : Stats) : List StatEvent :=
  drain_go st.events.length st

end Stats

section ClaimTheorems

/-- C1: the claim states that `next_layer_idc = 2` advances a prior
template `(s, t)` to `(s + 1, 0)`.  On the bit input `01 10 11` (byte
`0x6C`) the prior template before the idc-2 step is `(0, 1)`, so the claim
(and the AV1 table quoted in the source comment) require `(1, 0)`; the
code computes `next.spatial_layer_id = last.temporal_layer_id + 1` and
yields `(2, 0)`. -/
theorem claim_C1_idc2_spatial_from_temporal :
    (Dd.template_layers (Dd.BitStream.new [0x6C]) 1).map
      (fun r => r.1.map
        (fun t => (t.spatial_layer_id, t.temporal_layer_id)))
      = Except.ok [(0, 0), (0, 1), (2, 0)] := rfl

/-- A one-decode-target cached structure used by concrete descriptor
parses. -/
def cachedStructureOneDt : Dd.SharedStructure :=
  { decode_target_count := 1
    chain_count := 0
    protecting_chain_index_by_decode_target_index := []
    resolution_by_spatial_id := none
    template_by_id_minus_offset :=
      [⟨0, 0, [Dd.DecodeTargetIndication.Discardable], [], []⟩]
    template_id_offset := 0 }

/-- C2 counterexample: on the extended-fields byte `0x40` the
`active_decode_targets_present_flag` is set and no structure is carried,
yet the parser consumes exactly the five flag bits (the stream stops at
bit index 5) and produces no bitmask; and a full parse of
`[0, 0, 0, 0x40]` against a cached one-target structure and cached bitmask
1 keeps the decode target active from the *cached* bitmask instead of
reading a zero bit from the stream, contradicting the claim that
`decode_target_count` bits are consumed whenever the flag is set. -/
theorem claim_C2_counterexample_no_bits_consumed :
    Dd.extended_descriptor_fields (Dd.BitStream.new [0x40]) =
      Except.ok ((⟨false, false, false⟩,
        some { shared_structure := none
               active_decode_targets_bitmask := none }),
        ⟨[0x40], 5⟩) ∧
    (Dd.parse_dependency_descriptor [0, 0, 0, 0x40]
        (some cachedStructureOneDt) (some 1)).map
      (fun p => (p.decode_targets.map (fun dt => dt.active),
        p.udpated_active_decode_targets_bitmask))
      = Except.ok ([true], none) :=
  ⟨rfl, rfl⟩

/-- C7: the VLA payload `[0x61, 0x54, 0x01, 0x02, 0x04, 0x08, 0x10, 0x20]`
parses into three simulcast streams, each with a single spatial layer
carrying two temporal layers, cumulative kbps 1,2,4,8,16,32 in order and
no resolution/framerate blocks. -/
theorem claim_C7_vla_three_streams :
    Ext.VideoLayersAllocation.parse [0x61, 0x54, 0x01, 0x02, 0x04, 0x08, 0x10, 0x20]
      = some
        { current_simulcast_stream_index := 1
          simulcast_streams :=
            [⟨[⟨[⟨1⟩, ⟨2⟩], none⟩]⟩,
             ⟨[⟨[⟨4⟩, ⟨8⟩], none⟩]⟩,
             ⟨[⟨[⟨16⟩, ⟨32⟩], none⟩]⟩] } := by decide

end ClaimTheorems

section ClaimC6

/-- C6: for every salt, SSRC and 64-bit SRTP index, the Aes128CmSha1_80
RTP IV equals the claim's byte-wise description: big-endian SSRC at bytes
4..8, big-endian index XORed into bytes 6..14, salt XORed into bytes
0..14, bytes 14..16 zero (`rtp_iv_by_spec` spells that description out,
byte by byte). -/
theorem claim_C6_rtp_iv : ∀ (salt : List Nat) (ssrc srtp_index : Nat),
    Srtp.rtp_iv salt ssrc srtp_index = Srtp.rtp_iv_by_spec salt ssrc srtp_index := by
  intro salt ssrc srtp_index
  simp [Srtp.rtp_iv, Srtp.rtp_iv_by_spec, Srtp.u32_to_be_bytes,
    Srtp.u64_to_be_bytes, List.range_succ, Nat.zero_xor, Nat.xor_zero]

end ClaimC6

section ClaimC9

theorem foldl_append_singleton {α β : Type} (g : α → β) :
    ∀ (l : List α) (acc : List β),
      l.foldl (fun evs x => evs ++ [g x]) acc = acc ++ l.map g := by
  intro l
  induction l with
  | nil => simp
  | cons x xs ih =>
    intro acc
    simp [ih]

theorem drain_go_events : ∀ (evs : List Stats.StatEvent) (last : Nat),
    Stats.drain_go evs.length { last_now := last, events := evs } = evs := by
  intro evs
  induction evs with
  | nil => intro last; rfl
  | cons e rest ih =>
    intro last
    simp [Stats.drain_go, Stats.poll_output, ih]

/-- C9: `wants_timeout now` after handling a snapshot is true exactly when
`now` is at least `TIMING_ADVANCE` (one second) past that snapshot's
timestamp; `do_handle_timeout` appends exactly one `PeerStats` event, one
`MediaIngressStats` per ingress entry and one `MediaEgressStats` per
egress entry, all stamped with the snapshot timestamp, makes the snapshot
timestamp the new cadence base, and draining via `poll_output` yields the
queue in FIFO order. -/
theorem claim_C9_stats_cadence : ∀ (st : Stats.Stats)
    (snap : Stats.StatsSnapshot) (now : Nat),
    (Stats.wants_timeout (Stats.do_handle_timeout st snap) now = true ↔
      snap.ts + Stats.TIMING_ADVANCE ≤ now) ∧
    (Stats.do_handle_timeout st snap).last_now = snap.ts ∧
    (Stats.do_handle_timeout st snap).events =
      st.events ++
        [Stats.StatEvent.PeerStats
          ⟨snap.peer_rx, snap.peer_tx, snap.rx, snap.tx, snap.ts⟩] ++
        snap.ingress.map (fun p =>
          Stats.StatEvent.MediaIngressStats ⟨p.1.1, p.1.2, p.2, snap.ts⟩) ++
        snap.egress.map (fun p =>
          Stats.StatEvent.MediaEgressStats ⟨p.1.1, p.1.2, p.2, snap.ts⟩) ∧
    Stats.drain (Stats.do_handle_timeout st snap) =
      (Stats.do_handle_timeout st snap).events := by
  intro st snap now
  refine ⟨?_, rfl, ?_, ?_⟩
  · simp [Stats.wants_timeout, Stats.do_handle_timeout]
  · simp [Stats.do_handle_timeout, foldl_append_singleton]
  · show Stats.drain_go _ _ = _
    have h := drain_go_events (Stats.do_handle_timeout st snap).events snap.ts
    simpa [Stats.do_handle_timeout] using h

end ClaimC9

section ClaimC8

/-- Modelled from the specification text of §4.3.3: for each decode target
index, the maximum spatial id and maximum temporal id over the templates
whose DTI at that index exists and is not `NotPresent`; `(0, 0)` when no
template includes the decode target. -/
def layer_ids_by_decode_target_index_by_spec (ss : Dd.SharedStructure) :
    List (Nat × Nat) :=
  (List.range ss.decode_target_count).map (fun i =>
    let relevant := ss.template_by_id_minus_offset.filter
      (fun t =>
        match t.decode_target_indication_by_decode_target_index.get? i with
        | some dti => decide (dti ≠ Dd.DecodeTargetIndication.NotPresent)
        | none => false)
    ((relevant.map (fun t => t.spatial_layer_id)).foldl max 0,
     (relevant.map (fun t => t.temporal_layer_id)).foldl max 0))

theorem foldl_pair_max {α : Type} (p : α → Bool) (fs ft : α → Nat) :
    ∀ (l : List α) (a b : Nat),
      l.foldl (fun ids t =>
        if p t then (max ids.1 (fs t), max ids.2 (ft t)) else ids) (a, b)
      = (((l.filter p).map fs).foldl max a,
         ((l.filter p).map ft).foldl max b) := by
  intro l
  induction l with
  | nil => intro a b; rfl
  | cons x xs ih =>
    intro a b
    by_cases hx : p x
    · simp [hx, ih]
    · simp [hx, ih]

/-- C8: `layer_ids_by_decode_target_index` returns one pair per decode
target index (so the list length is `decode_target_count`), and at each
index the pair equals the componentwise maximum, over the templates whose
DTI at that index exists and is not `NotPresent`, of spatial and temporal
ids, starting from `(0, 0)` (hence `(0, 0)` when no template includes the
decode target); this is `layer_ids_by_decode_target_index_by_spec`. -/
theorem claim_C8_layer_ids : ∀ (ss : Dd.SharedStructure),
    (Dd.SharedStructure.layer_ids_by_decode_target_index ss).length =
      ss.decode_target_count ∧
    Dd.SharedStructure.layer_ids_by_decode_target_index ss =
      layer_ids_by_decode_target_index_by_spec ss := by
  intro ss
  constructor
  · simp [Dd.SharedStructure.layer_ids_by_decode_target_index]
  · unfold Dd.SharedStructure.layer_ids_by_decode_target_index
      layer_ids_by_decode_target_index_by_spec
    refine List.map_congr_left ?_
    intro i _
    have hfun : (fun (ids : Nat × Nat) (template : Dd.SharedStructureTemplate) =>
        match template.decode_target_indication_by_decode_target_index.get? i with
        | some dti =>
          if dti ≠ Dd.DecodeTargetIndication.NotPresent then
            (max ids.1 template.spatial_layer_id,
             max ids.2 template.temporal_layer_id)
          else ids
        | none => ids) =
        (fun ids t =>
          if (match t.decode_target_indication_by_decode_target_index.get? i with
              | some dti => decide (dti ≠ Dd.DecodeTargetIndication.NotPresent)
              | none => false) then
            (max ids.1 t.spatial_layer_id, max ids.2 t.temporal_layer_id)
          else ids) := by
      funext ids t
      cases t.decode_target_indication_by_decode_target_index.get? i with
      | none => simp
      | some dti =>
        by_cases hd : dti = Dd.DecodeTargetIndication.NotPresent <;> simp [hd]
    rw [hfun, foldl_pair_max]

end ClaimC8

section ClaimC10

theorem build_streams_length : ∀ (actives : List (List Bool)) (st : Ext.BuildState),
    (Ext.build_streams actives st).length = actives.length := by
  intro actives
  induction actives with
  | nil => intro st; rfl
  | cons flags rest ih =>
    intro st
    simp [Ext.build_streams, ih]

/-- C10: `VideoLayersAllocation::parse` returns `none` on the empty
buffer; exactly the single zero byte yields the all-inactive allocation
(index 0, no streams); an input starting with a zero byte followed by more
bytes is parsed as a regular allocation with exactly one simulcast stream
(hence never the all-inactive value), its spatial-layer bitmask taken from
the second byte, as the concrete parse of `[0x00, 0x10, 0x00, 0x05]`
(one active spatial layer from the high nibble of `0x10`, one temporal
layer of 5 kbps) illustrates. -/
theorem claim_C10_vla_zero_first_byte :
    Ext.VideoLayersAllocation.parse [] = none ∧
    Ext.VideoLayersAllocation.parse [0] =
      some { current_simulcast_stream_index := 0, simulcast_streams := [] } ∧
    (∀ (b : Nat) (rest : List Nat) (a : Ext.VideoLayersAllocation),
      Ext.VideoLayersAllocation.parse (0 :: b :: rest) = some a →
      a.simulcast_streams.length = 1 ∧
      a ≠ { current_simulcast_stream_index := 0, simulcast_streams := [] }) ∧
    Ext.VideoLayersAllocation.parse [0x00, 0x10, 0x00, 0x05] =
      some { current_simulcast_stream_index := 0
             simulcast_streams := [⟨[⟨[⟨5⟩], none⟩]⟩] } := by
  refine ⟨rfl, rfl, ?_, by decide⟩
  intro b rest a h
  unfold Ext.VideoLayersAllocation.parse at h
  simp only [List.isEmpty_cons, Bool.false_eq_true, and_false, if_false] at h
  norm_num [Ext.read_bits, Ext.div_round_up, Ext.split_at] at h
  repeat' split at h
  all_goals first
  | exact Option.noConfusion h
  | ((try simp only [Option.some_bind, Option.some.injEq] at h)
     have hstreams : a.simulcast_streams.length = 1 := by
       rw [← h]
       simp [build_streams_length, Ext.split_byte_in2]
     refine ⟨hstreams, ?_⟩
     intro hcontra
     rw [hcontra] at hstreams
     simp at hstreams)

end ClaimC10

/-- Witness for C10 at the concrete input `[0x00, 0x10, 0x00, 0x05]`. -/
theorem claim_C10_vla_zero_first_byte_witness :
    (({ current_simulcast_stream_index := 0
        simulcast_streams := [⟨[⟨[⟨5⟩], none⟩]⟩] } :
      Ext.VideoLayersAllocation)).simulcast_streams.length = 1 ∧
    ({ current_simulcast_stream_index := 0
       simulcast_streams := [⟨[⟨[⟨5⟩], none⟩]⟩] } :
      Ext.VideoLayersAllocation) ≠
      { current_simulcast_stream_index := 0, simulcast_streams := [] } :=
  claim_C10_vla_zero_first_byte.2.2.1 0x10 [0x00, 0x05] _ (by decide)

section ClaimC5

theorem mask255_eq {c : Nat} (h : c ≤ 8) : 255 >>> (8 - c) = 2 ^ c - 1 := by
  interval_cases c <;> rfl

theorem read_ms_bits_lt {byte rstart rend v : Nat}
    (hle : rend - rstart ≤ 8)
    (h : Dd.BitStream.read_ms_bits_of_byte byte rstart rend = some v) :
    v < 2 ^ (rend - rstart) := by
  unfold Dd.BitStream.read_ms_bits_of_byte at h
  split at h
  · exact absurd h (by simp)
  · simp only [Option.some.injEq] at h
    rw [← h, mask255_eq hle]
    have h1 := Nat.and_le_right (n := byte >>> (8 - rend)) (m := 2 ^ (rend - rstart) - 1)
    have h2 : 0 < 2 ^ (rend - rstart) := Nat.pos_pow_of_pos _ (by omega)
    omega

theorem read_u8_up_lt {s : Dd.BitStream} {c v : Nat} {s1 : Dd.BitStream}
    (h : Dd.BitStream.read_u8_up_until_end_of_byte0 s c = some (v, s1)) :
    v < 2 ^ c := by
  obtain ⟨bytes, bi⟩ := s
  unfold Dd.BitStream.read_u8_up_until_end_of_byte0 at h
  simp only at h
  split at h
  · simp only [Option.some.injEq, Prod.mk.injEq] at h
    have : (0 : Nat) < 2 ^ c := Nat.pos_pow_of_pos _ (by omega)
    omega
  · split at h
    · exact absurd h (by simp)
    · split at h
      · exact absurd h (by simp)
      · rename_i hc hend _ _ _
        split at h
        · exact absurd h (by simp)
        · rename_i bits hbits
          split at h <;>
          · simp only [Option.some.injEq, Prod.mk.injEq] at h
            have hcle : bi + c - bi ≤ 8 := by omega
            have := read_ms_bits_lt hcle hbits
            have hred : bi + c - bi = c := by omega
            rw [hred] at this
            omega

theorem read_u8_up_bi {s : Dd.BitStream} {c v : Nat} {s1 : Dd.BitStream}
    (hbi : s.bitIndex < 8)
    (h : Dd.BitStream.read_u8_up_until_end_of_byte0 s c = some (v, s1)) :
    s1.bitIndex < 8 := by
  obtain ⟨bytes, bi⟩ := s
  unfold Dd.BitStream.read_u8_up_until_end_of_byte0 at h
  simp only at h
  split at h
  · simp only [Option.some.injEq, Prod.mk.injEq] at h
    rw [← h.2]
    exact hbi
  · split at h
    · exact absurd h (by simp)
    · split at h
      · exact absurd h (by simp)
      · split at h
        · exact absurd h (by simp)
        · rename_i hc hend _ _ _ _ _
          split at h <;>
          · simp only [Option.some.injEq, Prod.mk.injEq] at h
            rw [← h.2]
            simp only
            omega

theorem readU32_le8 {s : Dd.BitStream} {n v : Nat} {s1 : Dd.BitStream}
    (hbi : s.bitIndex < 8) (hn : n ≤ 8)
    (h : Dd.BitStream.readU32 s n = some (v, s1)) :
    v < 2 ^ n ∧ s1.bitIndex < 8 := by
  unfold Dd.BitStream.readU32 at h
  simp only [Option.bind_eq_some, Option.map_eq_some'] at h
  obtain ⟨⟨lv, ls⟩, hl, ⟨mv, ms⟩, hm, ⟨rv, rs⟩, hr, he⟩ := h
  simp only [Prod.mk.injEq] at he
  dsimp only at hm hr
  have hmb : (n - min (8 - s.bitIndex) n - (n - (8 - s.bitIndex)) % 8) / 8 = 0 := by
    omega
  rw [hmb] at hm
  unfold Dd.BitStream.read_u32_from_aligned_bytes at hm
  norm_num at hm
  obtain ⟨hmv, hms⟩ := hm
  subst hms
  subst hmv
  have hlb := read_u8_up_lt hl
  have hrb := read_u8_up_lt hr
  have hbi1 := read_u8_up_bi hbi hl
  have hbi2 := read_u8_up_bi hbi1 hr
  have hmc : n - min (8 - s.bitIndex) n - (n - (8 - s.bitIndex)) % 8 = 0 := by
    omega
  have hsum : min (8 - s.bitIndex) n + (n - (8 - s.bitIndex)) % 8 = n := by
    omega
  rw [← he.2]
  refine ⟨?_, hbi2⟩
  rw [← he.1, hmc]
  have hlM : lv < 4294967296 := by
    have : (2 : Nat) ^ min (8 - s.bitIndex) n ≤ 2 ^ 8 :=
      Nat.pow_le_pow_right (by omega) (by omega)
    omega
  have hshift : lv <<< ((n - (8 - s.bitIndex)) % 8) < 2 ^ n := by
    rw [Nat.shiftLeft_eq]
    calc lv * 2 ^ ((n - (8 - s.bitIndex)) % 8)
        < 2 ^ min (8 - s.bitIndex) n * 2 ^ ((n - (8 - s.bitIndex)) % 8) := by
          exact Nat.mul_lt_mul_of_lt_of_le hlb (Nat.le_refl _)
            (Nat.pos_pow_of_pos _ (by omega))
      _ = 2 ^ n := by rw [← Nat.pow_add, hsum]
  have hpow : (2 : Nat) ^ n ≤ 2 ^ 8 := Nat.pow_le_pow_right (by omega) (by omega)
  rw [Nat.shiftLeft_zero, Nat.mod_eq_of_lt hlM, Nat.or_zero,
    Nat.mod_eq_of_lt (by omega : lv <<< ((n - (8 - s.bitIndex)) % 8) < 4294967296)]
  exact Nat.or_lt_two_pow hshift
    (lt_of_lt_of_le hrb (Nat.pow_le_pow_right (by omega) (by omega)))

end ClaimC5

section ClaimC5Main

theorem size_eq_log2_add_one {n : Nat} (h : 1 ≤ n) :
    Nat.size n = Nat.log2 n + 1 := by
  have h1 : 2 ^ Nat.log2 n ≤ n := Nat.log2_self_le (by omega)
  have h2 : n < 2 ^ (Nat.log2 n + 1) := Nat.lt_log2_self
  have h3 : Nat.size n ≤ Nat.log2 n + 1 := Nat.size_le.mpr h2
  have h4 : Nat.log2 n < Nat.size n := Nat.lt_size.mpr h1
  omega

theorem u8_bit_width_eq_size {n : Nat} (h : n ≤ 255) :
    Dd.u8_bit_width n = Nat.size n := by
  unfold Dd.u8_bit_width
  split_ifs with h1 h2 h3 h4 h5 h6 h7 h8
  all_goals first
  | (have ha := Nat.size_le (m := n) (n := 8)
     have hb := Nat.lt_size (m := 7) (n := n)
     omega)
  | (have ha := Nat.size_le (m := n) (n := 7)
     have hb := Nat.lt_size (m := 6) (n := n)
     omega)
  | (have ha := Nat.size_le (m := n) (n := 6)
     have hb := Nat.lt_size (m := 5) (n := n)
     omega)
  | (have ha := Nat.size_le (m := n) (n := 5)
     have hb := Nat.lt_size (m := 4) (n := n)
     omega)
  | (have ha := Nat.size_le (m := n) (n := 4)
     have hb := Nat.lt_size (m := 3) (n := n)
     omega)
  | (have ha := Nat.size_le (m := n) (n := 3)
     have hb := Nat.lt_size (m := 2) (n := n)
     omega)
  | (have ha := Nat.size_le (m := n) (n := 2)
     have hb := Nat.lt_size (m := 1) (n := n)
     omega)
  | (have ha := Nat.size_le (m := n) (n := 1)
     have hb := Nat.lt_size (m := 0) (n := n)
     omega)
  | (have hn0 : n = 0 := by omega
     rw [hn0]
     rfl)

theorem f_ok_readU32 {s : Dd.BitStream} {n : Nat} {r : Nat × Dd.BitStream}
    (h : Dd.f s n = Except.ok r) :
    Dd.BitStream.readU32 s n = some r := by
  unfold Dd.f at h
  cases hread : Dd.BitStream.readU32 s n with
  | none => rw [hread] at h; exact Except.noConfusion h
  | some r0 =>
    rw [hread] at h
    injection h with h
    rw [h]

/-- Modelled from the claim: for `n ≥ 1`, with `w = ⌊log2 n⌋ + 1` and
`m = 2^w - n`, read `w - 1` bits as `v` and return it when `v < m`,
otherwise read one more bit `b` and return `(v <<< 1) - m + b`; `ns(0)`
returns 0 without consuming bits. -/
def ns_by_spec (s : Dd.BitStream) (n : Nat) :
    Except Dd.ParseError (Nat × Dd.BitStream) :=
  if n = 0 then Except.ok (0, s)
  else
    let w := Nat.log2 n + 1
    let m := 2 ^ w - n
    match Dd.f s (w - 1) with
    | Except.error e => Except.error e
    | Except.ok (v, s1) =>
      if v < m then Except.ok (v, s1)
      else
        match Dd.f s1 1 with
        | Except.error e => Except.error e
        | Except.ok (extra_bit, s2) =>
          Except.ok ((v <<< 1) - m + extra_bit, s2)

/-- C5: `ns 0` returns 0 consuming nothing, and for `1 ≤ n ≤ 255` (the
`u8` domain) with a well-formed bit position, `ns` behaves exactly as the
claim's AV1 rule (`ns_by_spec`), every successful result is bounded by
`n - 1`, and the read consumes `⌊log2 n⌋` or `⌊log2 n⌋ + 1` bits. -/
theorem claim_C5_ns : ∀ (s : Dd.BitStream) (n : Nat),
    Dd.ns s 0 = Except.ok (0, s) ∧
    (1 ≤ n → n ≤ 255 → s.bitIndex < 8 →
      Dd.ns s n = ns_by_spec s n ∧
      (∀ v s1, Dd.ns s n = Except.ok (v, s1) →
        v + 1 ≤ n ∧
        (Dd.BitStream.bitsRemaining s =
           Dd.BitStream.bitsRemaining s1 + Nat.log2 n ∨
         Dd.BitStream.bitsRemaining s =
           Dd.BitStream.bitsRemaining s1 + (Nat.log2 n + 1)))) := by
  intro s n
  refine ⟨rfl, ?_⟩
  intro h1 h255 hbi
  have hsz := size_eq_log2_add_one h1
  have hw8 : Nat.size n ≤ 8 := Nat.size_le.mpr (by omega)
  have hszpos : 0 < Nat.size n := Nat.size_pos.mpr (by omega)
  have hlow : 2 ^ (Nat.size n - 1) ≤ n := Nat.lt_size.mp (by omega)
  have hhigh : n < 2 ^ Nat.size n := Nat.lt_size_self n
  have hbw : Dd.u8_bit_width n = Nat.size n := u8_bit_width_eq_size (by omega)
  have hsplitpow : 2 ^ Nat.size n = 2 ^ (Nat.size n - 1) * 2 := by
    have hs : Nat.size n = (Nat.size n - 1) + 1 := by omega
    conv_lhs => rw [hs]
    rw [pow_succ]
  constructor
  · simp only [Dd.ns, ns_by_spec, hbw, hsz, Nat.shiftLeft_eq, one_mul]
  · intro v s1 hok
    simp only [Dd.ns, hbw, if_neg (show ¬ n = 0 by omega)] at hok
    have hpow2 : (1 <<< Nat.size n) = 2 ^ Nat.size n := by
      simp [Nat.shiftLeft_eq]
    split at hok
    · exact Except.noConfusion hok
    · rename_i v0 sA hf
      have hrf := f_ok_readU32 hf
      have hb := readU32_le8 hbi (by omega) hrf
      have hbits1 := Dd.f_bits hf
      split at hok
      · rename_i hv
        injection hok with hok
        injection hok with hok1 hok2
        subst hok1
        subst hok2
        rw [hpow2] at hv
        constructor
        · omega
        · left
          omega
      · rename_i hv
        rw [hpow2] at hv
        split at hok
        · exact Except.noConfusion hok
        · rename_i b sB hf2
          injection hok with hok
          injection hok with hok1 hok2
          subst hok2
          have hrf2 := f_ok_readU32 hf2
          have hb2 := readU32_le8 hb.2 (by omega) hrf2
          have hbits2 := Dd.f_bits hf2
          have hdouble : v0 <<< 1 = v0 * 2 := by simp [Nat.shiftLeft_eq]
          rw [hpow2, hdouble] at hok1
          subst hok1
          constructor
          · have hb1 := hb.1
            have hb21 := hb2.1
            omega
          · right
            omega

end ClaimC5Main

/-- Witness for C5 at `n = 3` on the one-byte stream `0x80`: the read
takes two bits (`⌊log2 3⌋ + 1`) and returns 1. -/
theorem claim_C5_ns_witness :
    Dd.ns (Dd.BitStream.new [128]) 3 = ns_by_spec (Dd.BitStream.new [128]) 3 ∧
    (1 + 1 ≤ 3 ∧
      (Dd.BitStream.bitsRemaining (Dd.BitStream.new [128]) =
         Dd.BitStream.bitsRemaining ⟨[128], 2⟩ + Nat.log2 3 ∨
       Dd.BitStream.bitsRemaining (Dd.BitStream.new [128]) =
         Dd.BitStream.bitsRemaining ⟨[128], 2⟩ + (Nat.log2 3 + 1))) :=
  ⟨((claim_C5_ns (Dd.BitStream.new [128]) 3).2 (by decide) (by decide)
      (by decide)).1,
   ((claim_C5_ns (Dd.BitStream.new [128]) 3).2 (by decide) (by decide)
      (by decide)).2 1 ⟨[128], 2⟩ (by rfl)⟩

section ClaimC2

/-- C2 amended: after the five extended flags, the parser reads a
`decode_target_count`-bit `active_decode_targets_bitmask` only when the
`template_dependency_structure` is carried in the same packet (taking the
count from it); when the structure is present and the bitmask flag is
clear the bitmask defaults to all-ones over `decode_target_count` bits
(as a `u32`); and when the flag is set without an in-packet structure no
further bits are consumed and no bitmask is produced (the cached one is
used downstream). -/
theorem claim_C2_amended_bitmask :
    ∀ (s sA sB sC sD s5 : Dd.BitStream) (tf af df ff cf : Bool),
      Dd.f1 s = Except.ok (tf, sA) →
      Dd.f1 sA = Except.ok (af, sB) →
      Dd.f1 sB = Except.ok (df, sC) →
      Dd.f1 sC = Except.ok (ff, sD) →
      Dd.f1 sD = Except.ok (cf, s5) →
      (tf = false →
        Dd.extended_descriptor_fields s =
          Except.ok ((⟨df, ff, cf⟩, some ⟨none, none⟩), s5)) ∧
      (tf = true →
        ∀ tds s6, Dd.template_dependency_structure s5 = Except.ok (tds, s6) →
          (af = false →
            Dd.extended_descriptor_fields s =
              Except.ok ((⟨df, ff, cf⟩, some ⟨some tds,
                some (((1 <<< tds.decode_target_count) - 1) % 4294967296)⟩),
                s6)) ∧
          (af = true →
            Dd.extended_descriptor_fields s =
              (Dd.f s6 tds.decode_target_count).map
                (fun r => ((⟨df, ff, cf⟩,
                  some ⟨some tds, some r.1⟩), r.2)))) := by
  intro s sA sB sC sD s5 tf af df ff cf h1 h2 h3 h4 h5
  constructor
  · intro htf
    subst htf
    simp [Dd.extended_descriptor_fields, h1, h2, h3, h4, h5]
  · intro htf tds s6 h6
    subst htf
    constructor
    · intro haf
      subst haf
      simp [Dd.extended_descriptor_fields, h1, h2, h3, h4, h5, h6]
    · intro haf
      subst haf
      simp only [Dd.extended_descriptor_fields, h1, h2, h3, h4, h5, h6,
        if_pos rfl]
      cases hf : Dd.f s6 tds.decode_target_count with
      | error e => rfl
      | ok r => rfl

end ClaimC2

/-- Witness for the C2 amended theorem at the concrete three-byte stream
`[0x80, 0x00, 0xD0]`: template-structure flag set, bitmask flag clear,
yielding the one-decode-target structure with all-ones default bitmask 1
and final position bit 7 of the last byte. -/
theorem claim_C2_amended_bitmask_witness :
    Dd.extended_descriptor_fields (Dd.BitStream.new [0x80, 0x00, 0xD0]) =
      Except.ok ((⟨false, false, false⟩, some ⟨some cachedStructureOneDt,
        some (((1 <<< cachedStructureOneDt.decode_target_count) - 1) % 4294967296)⟩),
        ⟨[0xD0], 7⟩) :=
  ((claim_C2_amended_bitmask (Dd.BitStream.new [0x80, 0x00, 0xD0])
      ⟨[0x80, 0x00, 0xD0], 1⟩ ⟨[0x80, 0x00, 0xD0], 2⟩ ⟨[0x80, 0x00, 0xD0], 3⟩
      ⟨[0x80, 0x00, 0xD0], 4⟩ ⟨[0x80, 0x00, 0xD0], 5⟩
      true false false false false
      (by rfl) (by rfl) (by rfl) (by rfl) (by rfl)).2 rfl
    cachedStructureOneDt ⟨[0xD0], 7⟩ (by rfl)).1 rfl

section ClaimC4

/-- C4 counterexample: under the claim, both inputs below leave at most
three bytes (here: zero and one) after the three-byte mandatory prefix, so
both should be parsed as mandatory-only against the cache and succeed
identically; instead the four-byte input takes the extended path (its
fourth byte sets `template_dependency_structure_present_flag`) and fails
with `NotEnoughBits`. -/
theorem claim_C4_counterexample_one_extra_byte :
    Dd.parse_dependency_descriptor [0, 0, 0]
      (some cachedStructureOneDt) (some 1) =
      Except.ok
        { truncated_frame_number := 0
          spatial_layer_id := 0
          temporal_layer_id := 0
          resolution := none
          referred_relative_frame_numbers := []
          previous_relative_frame_number_by_chain_index := []
          is_first_packet := false
          is_last_packet := false
          decode_targets := [{ spatial_layer_id := 0, temporal_layer_id := 0,
                               active := true,
                               indication := Dd.DecodeTargetIndication.Discardable,
                               protecting_chain_index := none }]
          updated_shared_structure := none
          udpated_active_decode_targets_bitmask := none } ∧
    Dd.parse_dependency_descriptor [0, 0, 0, 0x80]
      (some cachedStructureOneDt) (some 1) =
      Except.error Dd.ParseError.NotEnoughBits :=
  ⟨rfl, rfl⟩

/-- C4 amended: the mandatory prefix consumes exactly the first three
bytes, and the extended fields are parsed if and only if at least one byte
remains after it (the buffer is longer than three bytes); otherwise the
parse continues with no extended fields and all custom flags false. -/
theorem claim_C4_extended_iff_any_byte_remains :
    ∀ (b0 b1 b2 : Nat) (rest : List Nat) (cS : Option Dd.SharedStructure)
      (cB : Option Nat),
      ∃ mf, Dd.mandatory_descriptor_fields
          (Dd.BitStream.new (b0 :: b1 :: b2 :: rest)) =
          Except.ok (mf, ⟨rest, 0⟩) ∧
        Dd.parse_dependency_descriptor (b0 :: b1 :: b2 :: rest) cS cB =
          (match (if rest.isEmpty then
                    Except.ok (Dd.no_extended_descriptor_fields,
                      (⟨rest, 0⟩ : Dd.BitStream))
                  else Dd.extended_descriptor_fields ⟨rest, 0⟩) with
           | Except.error e => Except.error e
           | Except.ok (r, s2) => Dd.dd_tail mf r.1 r.2 s2 cS cB) := by
  intro b0 b1 b2 rest cS cB
  have hm : ∃ mf, Dd.mandatory_descriptor_fields
      (Dd.BitStream.new (b0 :: b1 :: b2 :: rest)) =
      Except.ok (mf, ⟨rest, 0⟩) := by
    simp [Dd.mandatory_descriptor_fields, Dd.f1, Dd.f, Dd.BitStream.new,
      Dd.BitStream.readBit, Dd.BitStream.readU32,
      Dd.BitStream.read_u8_up_until_end_of_byte0,
      Dd.BitStream.read_ms_bit_of_byte, Dd.BitStream.read_ms_bits_of_byte,
      Dd.BitStream.read_u32_from_aligned_bytes, Dd.BitStream.read_aligned_bytes,
      Dd.BitStream.u32_from_bytes]
  obtain ⟨mf, hmand⟩ := hm
  refine ⟨mf, hmand, ?_⟩
  unfold Dd.parse_dependency_descriptor Dd.dependency_descriptor
  rw [hmand]
  cases rest with
  | nil => rfl
  | cons r rs =>
    cases hE : Dd.extended_descriptor_fields ⟨r :: rs, 0⟩ with
    | error e => simp [hE, Dd.BitStream.isEmpty]
    | ok p =>
      obtain ⟨⟨cf0, ef0⟩, s2⟩ := p
      simp [hE, Dd.BitStream.isEmpty]

end ClaimC4

section ClaimC3

/-- The extension kinds of the present entries, in slot order. -/
def kindsOf (m : Ext.ExtensionMap) : List Ext.Extension :=
  m.filterMap (fun o => o.map (fun me => me.ext))

/-- Every present entry of this kind is locked (vacuous when absent). -/
def lockedOrAbsent (m : Ext.ExtensionMap) (E : Ext.Extension) : Prop :=
  ∀ e : Ext.MapEntry, some e ∈ m → e.ext = E → e.locked = true

theorem findIdx?_ok_aux {α : Type} {p : α → Bool} :
    ∀ {l : List α} {s i : Nat}, List.findIdx? p l s = some i →
      s ≤ i ∧ ∃ x, l.get? (i - s) = some x ∧ p x = true := by
  intro l
  induction l with
  | nil => intro s i h; simp [List.findIdx?] at h
  | cons x xs ih =>
    intro s i h
    rw [List.findIdx?_cons] at h
    by_cases hx : p x
    · rw [if_pos hx] at h
      injection h with h
      subst h
      exact ⟨le_refl _, x, by simp, hx⟩
    · rw [if_neg hx] at h
      obtain ⟨hle, y, hy, hpy⟩ := ih h
      refine ⟨by omega, y, ?_, hpy⟩
      have hsub : i - s = (i - (s + 1)) + 1 := by omega
      rw [hsub]
      simpa using hy

theorem findIdx?_ok {α : Type} {p : α → Bool} {l : List α} {i : Nat}
    (h : l.findIdx? p = some i) : ∃ x, l.get? i = some x ∧ p x = true := by
  have := (findIdx?_ok_aux h).2
  simpa using this

theorem get?_of_getD_some {l : List (Option Ext.MapEntry)} {i : Nat}
    {me : Ext.MapEntry} (h : l.getD i none = some me) :
    l.get? i = some (some me) := by
  rw [List.getD_eq_get?] at h
  cases hg : l.get? i with
  | none => rw [hg] at h; exact Option.noConfusion h
  | some x => rw [hg] at h; simp at h; rw [h]

theorem set_get?_self {α : Type} :
    ∀ {l : List α} {i : Nat} {a : α}, l.get? i = some a → l.set i a = l := by
  intro l
  induction l with
  | nil => intro i a h; simp at h
  | cons x xs ih =>
    intro i a h
    cases i with
    | zero => simp at h; simp [h]
    | succ n =>
      simp only [List.get?_cons_succ] at h
      simp [List.set_cons_succ, ih h]

theorem mem_set_positional {α : Type} :
    ∀ {l : List α} {i : Nat} {v x : α}, x ∈ l.set i v →
      x = v ∨ ∃ j, j ≠ i ∧ l.get? j = some x := by
  intro l
  induction l with
  | nil => intro i v x h; simp at h
  | cons h t ih =>
    intro i v x hx
    cases i with
    | zero =>
      simp only [List.set_cons_zero, List.mem_cons] at hx
      cases hx with
      | inl h1 => exact Or.inl h1
      | inr h1 =>
        obtain ⟨j, hj⟩ := List.mem_iff_get?.mp h1
        exact Or.inr ⟨j + 1, by omega, by simpa using hj⟩
    | succ n =>
      simp only [List.set_cons_succ, List.mem_cons] at hx
      cases hx with
      | inl h1 => exact Or.inr ⟨0, by omega, by simp [h1]⟩
      | inr h1 =>
        cases ih h1 with
        | inl h2 => exact Or.inl h2
        | inr h2 =>
          obtain ⟨j, hj1, hj2⟩ := h2
          exact Or.inr ⟨j + 1, by omega, by simpa using hj2⟩

theorem count_set_eq {α : Type} [DecidableEq α] :
    ∀ (l : List α) (i : Nat) (v y x : α), l.get? i = some y →
      (l.set i v).count x + (if y = x then 1 else 0) =
        l.count x + (if v = x then 1 else 0) := by
  intro l
  induction l with
  | nil => intro i v y x h; simp at h
  | cons h t ih =>
    intro i v y x hg
    cases i with
    | zero =>
      simp only [List.get?_cons_zero, Option.some.injEq] at hg
      subst hg
      simp only [List.set_cons_zero, List.count_cons, beq_iff_eq]
      split_ifs <;> omega
    | succ n =>
      simp only [List.get?_cons_succ] at hg
      have := ih n v y x hg
      simp only [List.set_cons_succ, List.count_cons, beq_iff_eq]
      split_ifs at this ⊢ <;> omega

theorem get?_some_of_lt {α : Type} {l : List α} {i : Nat} (h : i < l.length) :
    ∃ x, l.get? i = some x := by
  cases hg : l.get? i with
  | none => exact absurd (List.get?_eq_none.mp hg) (by omega)
  | some x => exact ⟨x, rfl⟩

theorem get?_set_lt {α : Type} {l : List α} {i : Nat} (h : i < l.length)
    (v : α) : (l.set i v).get? i = some v := by
  obtain ⟨y, hy⟩ := get?_some_of_lt h
  rw [List.get?_set_eq, hy]
  rfl

theorem listSwap_perm {l : Ext.ExtensionMap} {i j : Nat}
    (hi : i < l.length) (hj : j < l.length) :
    (Ext.listSwap l i j).Perm l := by
  obtain ⟨a, ha⟩ := get?_some_of_lt hi
  obtain ⟨b, hb⟩ := get?_some_of_lt hj
  have hgda : l.getD i none = a := by rw [List.getD_eq_get?, ha]; rfl
  have hgdb : l.getD j none = b := by rw [List.getD_eq_get?, hb]; rfl
  rw [List.perm_iff_count]
  intro x
  unfold Ext.listSwap
  rw [hgda, hgdb]
  dsimp only
  by_cases hij : i = j
  · subst hij
    rw [ha] at hb
    injection hb with hb
    subst hb
    have h1 : (l.set i a).get? i = some a := by
      rw [List.get?_set_eq]
      rw [ha]
      rfl
    have c1 := count_set_eq l i a a x ha
    have c2 := count_set_eq (l.set i a) i a a x h1
    omega
  · have h1 : (l.set i b).get? j = some b := by
      rw [List.get?_set_ne _ l hij, hb]
    have c1 := count_set_eq l i b a x ha
    have c2 := count_set_eq (l.set i b) j a b x h1
    split_ifs at c1 c2 <;> omega

theorem kindsOf_set_sameExt :
    ∀ {l : Ext.ExtensionMap} {i : Nat} {me : Ext.MapEntry}
      (me' : Ext.MapEntry),
      l.get? i = some (some me) → me'.ext = me.ext →
      kindsOf (l.set i (some me')) = kindsOf l := by
  intro l
  induction l with
  | nil => intro i me me' h _; simp at h
  | cons h t ih =>
    intro i me me' hg hext
    cases i with
    | zero =>
      simp only [List.get?_cons_zero, Option.some.injEq] at hg
      subst hg
      simp [kindsOf, List.filterMap_cons, hext]
    | succ n =>
      simp only [List.get?_cons_succ] at hg
      have := ih me' hg hext
      cases h with
      | none => simpa [kindsOf, List.filterMap_cons] using this
      | some he => simpa [kindsOf, List.filterMap_cons] using this

theorem kind_mem_of_get? {m : Ext.ExtensionMap} {j : Nat} {e : Ext.MapEntry}
    (h : m.get? j = some (some e)) : e.ext ∈ kindsOf m := by
  have hm : some e ∈ m := List.get?_mem h
  simp only [kindsOf, List.mem_filterMap]
  exact ⟨some e, hm, rfl⟩

theorem kindsOf_nodup_unique :
    ∀ {m : Ext.ExtensionMap}, (kindsOf m).Nodup →
      ∀ {i j : Nat} {a b : Ext.MapEntry},
        m.get? i = some (some a) → m.get? j = some (some b) →
        a.ext = b.ext → i = j := by
  intro m
  induction m with
  | nil => intro _ i j a b ha _ _; simp at ha
  | cons h t ih =>
    intro hnd i j a b ha hb hext
    cases h with
    | some he =>
      simp only [kindsOf, List.filterMap_cons, Option.map_some'] at hnd
      rw [List.nodup_cons] at hnd
      cases i with
      | zero =>
        cases j with
        | zero => rfl
        | succ n =>
          simp only [List.get?_cons_zero, Option.some.injEq] at ha
          simp only [List.get?_cons_succ] at hb
          exfalso
          apply hnd.1
          have : b.ext ∈ kindsOf t := kind_mem_of_get? hb
          rw [← hext, ← ha] at this
          exact this
      | succ n =>
        cases j with
        | zero =>
          simp only [List.get?_cons_zero, Option.some.injEq] at hb
          simp only [List.get?_cons_succ] at ha
          exfalso
          apply hnd.1
          have : a.ext ∈ kindsOf t := kind_mem_of_get? ha
          rw [hext, ← hb] at this
          exact this
        | succ k =>
          simp only [List.get?_cons_succ] at ha hb
          have := ih hnd.2 ha hb hext
          omega
    | none =>
      simp only [kindsOf, List.filterMap_cons, Option.map_none'] at hnd
      cases i with
      | zero => simp at ha
      | succ n =>
        cases j with
        | zero => simp at hb
        | succ k =>
          simp only [List.get?_cons_succ] at ha hb
          have := ih (by simpa [kindsOf] using hnd) ha hb hext
          omega

end ClaimC3

section ClaimC3b

theorem swap_invalid {m : Ext.ExtensionMap} {id : Nat} {E : Ext.Extension}
    (h : id < 1 ∨ id > 14) : Ext.swap m id E = m := by
  unfold Ext.swap
  rw [if_pos h]

theorem swap_shape (m : Ext.ExtensionMap) (id : Nat) (E : Ext.Extension) :
    ((id < 1 ∨ id > 14) ∧ Ext.swap m id E = m) ∨
    (m.findIdx? (fun e => e.map (fun me => me.ext) == some E) = none ∧
      Ext.swap m id E = m) ∨
    (∃ oi old, m.get? oi = some (some old) ∧ old.ext = E ∧ oi < m.length ∧
      ((id - 1 ≠ oi ∧ old.locked = true ∧ Ext.swap m id E = m) ∨
       (id - 1 = oi ∧
        Ext.swap m id E = m.set oi (some ⟨old.ext, true⟩)) ∨
       (1 ≤ id ∧ id ≤ 14 ∧ id - 1 ≠ oi ∧ old.locked = false ∧
        Ext.swap m id E =
          Ext.listSwap (m.set oi (some ⟨old.ext, true⟩)) oi (id - 1)))) := by
  by_cases hid : id < 1 ∨ id > 14
  · exact Or.inl ⟨hid, swap_invalid hid⟩
  · cases hfind : m.findIdx? (fun e => e.map (fun me => me.ext) == some E) with
    | none =>
      refine Or.inr (Or.inl ⟨rfl, ?_⟩)
      unfold Ext.swap
      rw [if_neg hid]
      simp only [hfind]
    | some oi =>
      obtain ⟨xo, hxo, hpred⟩ := findIdx?_ok hfind
      cases xo with
      | none => simp at hpred
      | some old =>
        have hext : old.ext = E := by simpa using hpred
        have hlt : oi < m.length := by
          by_contra hcon
          rw [List.get?_eq_none.mpr (by omega)] at hxo
          exact Option.noConfusion hxo
        have hgd : m.getD oi none = some old := by
          rw [List.getD_eq_get?, hxo]; rfl
        refine Or.inr (Or.inr ⟨oi, old, hxo, hext, hlt, ?_⟩)
        by_cases hch : id - 1 ≠ oi
        · by_cases hlk : old.locked = true
          · refine Or.inl ⟨hch, hlk, ?_⟩
            unfold Ext.swap
            rw [if_neg hid]
            simp only [hfind, hgd]
            rw [if_pos ⟨hch, hlk⟩]
          · refine Or.inr (Or.inr ⟨by omega, by omega, hch,
              by simp at hlk; exact hlk, ?_⟩)
            unfold Ext.swap
            rw [if_neg hid]
            simp only [hfind, hgd]
            rw [if_neg (fun hc => hlk hc.2), if_neg (fun hc => hc hch)]
        · push_neg at hch
          refine Or.inr (Or.inl ⟨hch, ?_⟩)
          unfold Ext.swap
          rw [if_neg hid]
          simp only [hfind, hgd]
          rw [if_neg (fun hc => hc.1 hch), if_pos (fun hc => hc hch)]

theorem swap_length (m : Ext.ExtensionMap) (id : Nat) (E : Ext.Extension) :
    (Ext.swap m id E).length = m.length := by
  rcases swap_shape m id E with ⟨_, hq⟩ | ⟨_, hq⟩ |
    ⟨oi, old, _, _, _, ⟨_, _, hq⟩ | ⟨_, hq⟩ | ⟨_, _, _, _, hq⟩⟩ <;>
    rw [hq] <;> simp [Ext.listSwap]

theorem mem_set_cases {m : Ext.ExtensionMap} {oi : Nat}
    {v x : Option Ext.MapEntry} (hlt : oi < m.length) (hx : x ∈ m) :
    x ∈ m.set oi v ∨ m.get? oi = some x := by
  obtain ⟨j, hj⟩ := List.mem_iff_get?.mp hx
  by_cases hji : j = oi
  · subst hji
    exact Or.inr hj
  · refine Or.inl (List.get?_mem (n := j) ?_)
    rw [List.get?_set_ne _ _ (fun h => hji h.symm)]
    exact hj

theorem listSwap_mem_iff {l : Ext.ExtensionMap} {i j : Nat}
    (hi : i < l.length) (hj : j < l.length) {x : Option Ext.MapEntry} :
    x ∈ Ext.listSwap l i j ↔ x ∈ l :=
  (listSwap_perm hi hj).mem_iff

theorem swap_mem_locked {m : Ext.ExtensionMap} {id : Nat} {E : Ext.Extension}
    (hlen : m.length = 14) {e : Ext.MapEntry} (he : e.locked = true)
    (hm : some e ∈ m) : some e ∈ Ext.swap m id E := by
  rcases swap_shape m id E with ⟨_, hq⟩ | ⟨_, hq⟩ |
    ⟨oi, old, hxo, hext, hlt, hc⟩
  · rw [hq]; exact hm
  · rw [hq]; exact hm
  · rcases hc with ⟨_, _, hq⟩ | ⟨_, hq⟩ | ⟨h1, h14, _, hold, hq⟩
    · rw [hq]; exact hm
    · rw [hq]
      rcases mem_set_cases (v := some ⟨old.ext, true⟩) hlt hm with hin | hat
      · exact hin
      · rw [hxo] at hat
        injection hat with hat
        injection hat with hat
        subst hat
        cases old with
        | mk x lk =>
          simp only [Ext.MapEntry.locked] at he
          subst he
          refine List.get?_mem (n := oi) ?_
          exact get?_set_lt hlt _
    · rw [hq]
      rw [listSwap_mem_iff (by simp; omega) (by simp; omega)]
      rcases mem_set_cases (v := some ⟨old.ext, true⟩) hlt hm with hin | hat
      · exact hin
      · rw [hxo] at hat
        injection hat with hat
        injection hat with hat
        subst hat
        rw [he] at hold
        exact Bool.noConfusion hold

theorem swap_lockedOrAbsent {m : Ext.ExtensionMap} {id : Nat}
    {E E' : Ext.Extension} (hlen : m.length = 14)
    (h : lockedOrAbsent m E') :
    lockedOrAbsent (Ext.swap m id E) E' := by
  intro e hme hext
  rcases swap_shape m id E with ⟨_, hq⟩ | ⟨_, hq⟩ |
    ⟨oi, old, hxo, hoe, hlt, hc⟩
  · rw [hq] at hme; exact h e hme hext
  · rw [hq] at hme; exact h e hme hext
  · rcases hc with ⟨_, _, hq⟩ | ⟨_, hq⟩ | ⟨h1, h14, _, hold, hq⟩
    · rw [hq] at hme; exact h e hme hext
    · rw [hq] at hme
      rcases mem_set_positional hme with hv | ⟨j, hji, hj⟩
      · injection hv with hv
        rw [hv]
      · exact h e (List.get?_mem hj) hext
    · rw [hq] at hme
      rw [listSwap_mem_iff (by simp; omega) (by simp; omega)] at hme
      rcases mem_set_positional hme with hv | ⟨j, hji, hj⟩
      · injection hv with hv
        rw [hv]
      · exact h e (List.get?_mem hj) hext

theorem swap_establishes {m : Ext.ExtensionMap} {id : Nat}
    {E : Ext.Extension} (hlen : m.length = 14)
    (hnd : (kindsOf m).Nodup)
    (h1 : 1 ≤ id) (h14 : id ≤ 14) :
    lockedOrAbsent (Ext.swap m id E) E := by
  intro e hme hext
  rcases swap_shape m id E with ⟨hid, hq⟩ | ⟨hfind, hq⟩ |
    ⟨oi, old, hxo, hoe, hlt, hc⟩
  · omega
  · rw [hq] at hme
    obtain ⟨j, hj⟩ := List.mem_iff_get?.mp hme
    have := List.findIdx?_eq_none_iff.mp hfind (some e) (List.get?_mem hj)
    simp [hext] at this
  · rcases hc with ⟨hne, hlk, hq⟩ | ⟨heq, hq⟩ | ⟨hv1, hv14, hne, hold, hq⟩
    · rw [hq] at hme
      obtain ⟨j, hj⟩ := List.mem_iff_get?.mp hme
      have hji : j = oi :=
        kindsOf_nodup_unique hnd hj hxo (by rw [hext, hoe])
      subst hji
      rw [hxo] at hj
      injection hj with hj
      injection hj with hj
      rw [hj] at hlk
      exact hlk
    · rw [hq] at hme
      rcases mem_set_positional hme with hv | ⟨j, hji, hj⟩
      · injection hv with hv
        rw [hv]
      · have := kindsOf_nodup_unique hnd hj hxo (by rw [hext, hoe])
        exact absurd this hji
    · rw [hq] at hme
      rw [listSwap_mem_iff (by simp; omega) (by simp; omega)] at hme
      rcases mem_set_positional hme with hv | ⟨j, hji, hj⟩
      · injection hv with hv
        rw [hv]
      · have := kindsOf_nodup_unique hnd hj hxo (by rw [hext, hoe])
        exact absurd this hji

theorem swap_id_of_lockedOrAbsent {m : Ext.ExtensionMap} {id : Nat}
    {E : Ext.Extension} (h : lockedOrAbsent m E) : Ext.swap m id E = m := by
  rcases swap_shape m id E with ⟨_, hq⟩ | ⟨_, hq⟩ |
    ⟨oi, old, hxo, hext, hlt, hc⟩
  · exact hq
  · exact hq
  · have hold : old.locked = true := h old (List.get?_mem hxo) hext
    rcases hc with ⟨_, _, hq⟩ | ⟨_, hq⟩ | ⟨_, _, _, hfalse, hq⟩
    · exact hq
    · rw [hq]
      cases old with
      | mk x lk =>
        simp only [Ext.MapEntry.locked] at hold
        subst hold
        exact set_get?_self hxo
    · rw [hold] at hfalse
      exact Bool.noConfusion hfalse

theorem swap_kindsOf_perm {m : Ext.ExtensionMap} {id : Nat}
    {E : Ext.Extension} (hlen : m.length = 14) :
    (kindsOf (Ext.swap m id E)).Perm (kindsOf m) := by
  rcases swap_shape m id E with ⟨_, hq⟩ | ⟨_, hq⟩ |
    ⟨oi, old, hxo, hext, hlt, hc⟩
  · rw [hq]
  · rw [hq]
  · rcases hc with ⟨_, _, hq⟩ | ⟨_, hq⟩ | ⟨h1, h14, _, _, hq⟩
    · rw [hq]
    · rw [hq, kindsOf_set_sameExt ⟨old.ext, true⟩ hxo rfl]
    · rw [hq]
      have hp : (Ext.listSwap (m.set oi (some ⟨old.ext, true⟩)) oi
          (id - 1)).Perm (m.set oi (some ⟨old.ext, true⟩)) :=
        listSwap_perm (by simp; omega) (by simp; omega)
      have h2 := hp.filterMap (fun o => o.map (fun me => me.ext))
      have heq := kindsOf_set_sameExt ⟨old.ext, true⟩ hxo rfl
      unfold kindsOf at heq ⊢
      rw [heq] at h2
      exact h2

end ClaimC3b

section ClaimC3c

theorem remap_cons (m : Ext.ExtensionMap) (p : Nat × Ext.Extension)
    (L : List (Nat × Ext.Extension)) :
    Ext.remap m (p :: L) = Ext.remap (Ext.swap m p.1 p.2) L := rfl

theorem remap_length (L : List (Nat × Ext.Extension)) :
    ∀ m : Ext.ExtensionMap, (Ext.remap m L).length = m.length := by
  induction L with
  | nil => intro m; rfl
  | cons p L ih => intro m; rw [remap_cons, ih, swap_length]

theorem remap_mem_locked (L : List (Nat × Ext.Extension)) :
    ∀ (m : Ext.ExtensionMap), m.length = 14 →
      ∀ (e : Ext.MapEntry), e.locked = true → some e ∈ m →
        some e ∈ Ext.remap m L := by
  induction L with
  | nil => intro m _ e _ hm; exact hm
  | cons p L ih =>
    intro m hlen e he hm
    rw [remap_cons]
    exact ih (Ext.swap m p.1 p.2) (by rw [swap_length]; exact hlen) e he
      (swap_mem_locked hlen he hm)

theorem remap_lockedOrAbsent (L : List (Nat × Ext.Extension)) :
    ∀ (m : Ext.ExtensionMap) (E : Ext.Extension), m.length = 14 →
      lockedOrAbsent m E → lockedOrAbsent (Ext.remap m L) E := by
  induction L with
  | nil => intro m E _ h; exact h
  | cons p L ih =>
    intro m E hlen h
    rw [remap_cons]
    exact ih (Ext.swap m p.1 p.2) E (by rw [swap_length]; exact hlen)
      (swap_lockedOrAbsent hlen h)

theorem remap_kindsOf_perm (L : List (Nat × Ext.Extension)) :
    ∀ (m : Ext.ExtensionMap), m.length = 14 →
      (kindsOf (Ext.remap m L)).Perm (kindsOf m) := by
  induction L with
  | nil => intro m _; rfl
  | cons p L ih =>
    intro m hlen
    rw [remap_cons]
    exact (ih (Ext.swap m p.1 p.2)
      (by rw [swap_length]; exact hlen)).trans (swap_kindsOf_perm hlen)

theorem remap_establishes_all (L : List (Nat × Ext.Extension)) :
    ∀ (m : Ext.ExtensionMap), m.length = 14 → (kindsOf m).Nodup →
      ∀ p ∈ L, 1 ≤ p.1 → p.1 ≤ 14 →
        lockedOrAbsent (Ext.remap m L) p.2 := by
  induction L with
  | nil => intro m _ _ p hp; simp at hp
  | cons q L ih =>
    intro m hlen hnd p hp h1 h14
    rw [remap_cons]
    have hlen' : (Ext.swap m q.1 q.2).length = 14 := by
      rw [swap_length]; exact hlen
    rcases List.mem_cons.mp hp with hpq | hp'
    · subst hpq
      exact remap_lockedOrAbsent L (Ext.swap m p.1 p.2) p.2 hlen'
        (swap_establishes hlen hnd h1 h14)
    · exact ih (Ext.swap m q.1 q.2) hlen'
        ((swap_kindsOf_perm hlen).nodup_iff.mpr hnd) p hp' h1 h14

theorem remap_id_of_all (L : List (Nat × Ext.Extension)) :
    ∀ (m : Ext.ExtensionMap),
      (∀ p ∈ L, 1 ≤ p.1 → p.1 ≤ 14 → lockedOrAbsent m p.2) →
      Ext.remap m L = m := by
  induction L with
  | nil => intro m _; rfl
  | cons q L ih =>
    intro m hall
    rw [remap_cons]
    by_cases hv : 1 ≤ q.1 ∧ q.1 ≤ 14
    · have hq : Ext.swap m q.1 q.2 = m :=
        swap_id_of_lockedOrAbsent (hall q (List.mem_cons_self q L) hv.1 hv.2)
      rw [hq]
      exact ih m (fun p hp => hall p (List.mem_cons_of_mem q hp))
    · have hq : Ext.swap m q.1 q.2 = m := swap_invalid (by omega)
      rw [hq]
      exact ih m (fun p hp => hall p (List.mem_cons_of_mem q hp))

end ClaimC3c

/-- Concrete 14-slot map with a locked AudioLevel entry in slot 0 (id 1)
and an unlocked RtpMid entry in slot 1 (id 2). -/
def c3_map_a : Ext.ExtensionMap :=
  [some ⟨Ext.Extension.AudioLevel, true⟩,
   some ⟨Ext.Extension.RtpMid, false⟩] ++ List.replicate 12 none

/-- Concrete 14-slot map holding two entries of the same kind
(AudioLevel in slots 1 and 5). -/
def c3_map_b : Ext.ExtensionMap :=
  [some ⟨Ext.Extension.ColorSpace, false⟩,
   some ⟨Ext.Extension.AudioLevel, false⟩,
   none, none, none,
   some ⟨Ext.Extension.AudioLevel, false⟩] ++ List.replicate 8 none

def c3_L_b : List (Nat × Ext.Extension) :=
  [(3, Ext.Extension.AudioLevel), (6, Ext.Extension.ColorSpace)]

/-- C3, counterexample.  (i) `remap` is not idempotent in general: on a map
holding two entries of the same kind, applying the same remote list twice
gives a different map than applying it once.  (ii) `remap` can change the
id of a locked entry: the locked AudioLevel entry sits in slot 0 (id 1)
before the remap and in slot 1 (id 2) after it, because `swap` only checks
the lock of the entry being moved, while `Vec::swap` displaces whatever
occupies the target slot. -/
theorem claim_C3_counterexample :
    Ext.remap (Ext.remap c3_map_b c3_L_b) c3_L_b ≠ Ext.remap c3_map_b c3_L_b ∧
    c3_map_a.get? 0 = some (some ⟨Ext.Extension.AudioLevel, true⟩) ∧
    (Ext.remap c3_map_a [(1, Ext.Extension.RtpMid)]).get? 0 ≠
      some (some ⟨Ext.Extension.AudioLevel, true⟩) ∧
    (Ext.remap c3_map_a [(1, Ext.Extension.RtpMid)]).get? 1 =
      some (some ⟨Ext.Extension.AudioLevel, true⟩) := by
  refine ⟨by decide, by decide, by decide, by decide⟩

/-- C3, amended.  For every 14-slot extension map whose present entries
have pairwise distinct kinds, `remap` with the same remote list twice gives
the same map as applying it once; and (without any uniqueness assumption)
every locked entry of the map is still present, with its kind and lock
intact, after `remap` — though possibly in a different slot. -/
theorem claim_C3_amended_remap (m : Ext.ExtensionMap)
    (L : List (Nat × Ext.Extension)) (hlen : m.length = 14) :
    ((kindsOf m).Nodup → Ext.remap (Ext.remap m L) L = Ext.remap m L) ∧
    (∀ e : Ext.MapEntry, e.locked = true → some e ∈ m →
      some e ∈ Ext.remap m L) := by
  constructor
  · intro hnd
    exact remap_id_of_all L (Ext.remap m L)
      (fun p hp h1 h14 => remap_establishes_all L m hlen hnd p hp h1 h14)
  · intro e he hm
    exact remap_mem_locked L m hlen e he hm

def c3w_m : Ext.ExtensionMap :=
  [some ⟨Ext.Extension.AudioLevel, false⟩,
   some ⟨Ext.Extension.RtpMid, true⟩] ++ List.replicate 12 none

def c3w_L : List (Nat × Ext.Extension) :=
  [(3, Ext.Extension.AudioLevel), (2, Ext.Extension.RtpMid)]

/-- C3, witness: the amended theorem applied to a concrete distinct-kind
map and remote list. -/
theorem claim_C3_amended_remap_witness :
    Ext.remap (Ext.remap c3w_m c3w_L) c3w_L = Ext.remap c3w_m c3w_L ∧
    some (⟨Ext.Extension.RtpMid, true⟩ : Ext.MapEntry) ∈
      Ext.remap c3w_m c3w_L := by
  have h := claim_C3_amended_remap c3w_m c3w_L (by decide)
  exact ⟨h.1 (by decide),
    h.2 ⟨Ext.Extension.RtpMid, true⟩ (by decide) (by decide)⟩
